import Mathlib

/-!
Staggered cartesian grid (`staggered_grid.h`)

A shallow embedding of the class `StaggeredGrid`, its nested classes `Cell`,
`iterator` and `reverse_iterator`, and the free interpolation functions.

Conventions of the embedding.

* A C++ `int` or `unsigned int` is a Lean `Int` (`Nat` for the constructor's
  `unsigned int` arguments). The arithmetic is the exact one: every statement
  is about values inside the range of `int`, where C++ arithmetic is exact and
  the conversions between `int` and `unsigned int` and back are the identity.
  Signed overflow is undefined behaviour in C++ and is given no meaning here.
* The C++ operators `/` and `%` on `int` round toward zero: `Int.tdiv`, `Int.tmod`.
* A C++ `double` is an exact rational. The implicit conversion of a `double`
  to `int` discards the fractional part: `truncToInt` is that truncation as a
  mathematical integer, the value of the conversion whenever it fits the
  32-bit `int`. `toInt32` is the conversion with its range, and
  `cell_id_int32` is `cell_id` computed with it; the two agree on every point
  whose truncated quotients fit an `int`.
* A `const StaggeredGrid&` member is a field holding the (immutable) grid.
-/

/-- The struct `Point`. -/
structure Point where
  x : ℚ
  y : ℚ
  deriving DecidableEq

/-- The data members of `StaggeredGrid`, in declaration order. -/
structure StaggeredGrid where
  lx : ℚ
  ly : ℚ
  nx : Int
  ny : Int
  dx : ℚ
  dy : ℚ
  ncells : Int
  deriving DecidableEq

/-- The error a constructor could raise. `staggered_grid.h` has no `throw`, so no
function of the embedding ever produces it. -/
inductive ConstructionError where
  | nonPositiveCount
  deriving DecidableEq

/-- Truncation toward zero: the fractional part is discarded. This is the value
of the conversion of a `double` to `int` whenever that value fits an `int`; it
is not bounded by the range of `int` (see `toInt32`). -/
def truncToInt (q : ℚ) : Int := if 0 ≤ q then ⌊q⌋ else ⌈q⌉

/-- The values of the 32-bit `int`: from `INT_MIN = -2^31` to `INT_MAX = 2^31 - 1`. -/
@[reducible] def int32_representable (z : Int) : Prop := -2 ^ 31 ≤ z ∧ z < 2 ^ 31

/-- Conversion of a `double` to the 32-bit `int`, as in `int xindex = (p.x/dx)`:
the truncated value when it is representable. When it is not, C++ leaves the
behaviour undefined; the value taken here is the one the x86-64 conversion
instruction delivers, `INT_MIN`. -/
def toInt32 (q : ℚ) : Int :=
  if int32_representable (truncToInt q) then truncToInt q else -2 ^ 31

namespace StaggeredGrid

/-- The constructor `StaggeredGrid(lenx, leny, numx, numy)`: the member
initialisers `lx(lenx), ly(leny), nx(numx), ny(numy), dx(lx/nx), dy(ly/ny),
ncells(nx*ny)` and an empty body. For `nx = 0` the C++ quotient `lx/nx` is an
IEEE infinity (or NaN), which has no rational value; the field then holds the
value of the rational division by zero and is the result of a division by zero. -/
def ctor (lenx leny : ℚ) (numx numy : Nat) : StaggeredGrid :=
  { lx := lenx
    ly := leny
    nx := (numx : Int)
    ny := (numy : Int)
    dx := lenx / ((numx : Int) : ℚ)
    dy := leny / ((numy : Int) : ℚ)
    ncells := (numx : Int) * (numy : Int) }

/-- Construction seen as an operation that may raise: the constructor has no
guard and no `throw`, so it completes normally on all arguments. -/
def construct (lenx leny : ℚ) (numx numy : Nat) : Except ConstructionError StaggeredGrid :=
  Except.ok (ctor lenx leny numx numy)

/-- The class `Cell`: a reference to the grid and an `int id`. -/
structure Cell where
  grid : StaggeredGrid
  id : Int
  deriving DecidableEq

namespace Cell

/-- The constructor `Cell(unsigned int i, const StaggeredGrid &g)`. -/
def ctor (i : Int) (g : StaggeredGrid) : Cell := { grid := g, id := i }

/-- Source: `int xindex() { return id % grid.nx; }` -/
def xindex (c : Cell) : Int := Int.tmod c.id c.grid.nx

/-- Source: `int yindex() { return id / grid.nx; }` -/
def yindex (c : Cell) : Int := Int.tdiv c.id c.grid.nx

/-- Source: `(id % grid.nx == 0 ? id+grid.nx-1 : id-1)` -/
def left (c : Cell) : Int :=
  if Int.tmod c.id c.grid.nx = 0 then c.id + c.grid.nx - 1 else c.id - 1

/-- Source: `((id+1)%grid.nx == 0 ? id-grid.nx+1 : id+1)` -/
def right (c : Cell) : Int :=
  if Int.tmod (c.id + 1) c.grid.nx = 0 then c.id - c.grid.nx + 1 else c.id + 1

/-- Source: `(id + grid.nx >= grid.ncells ? id-grid.nx*(grid.ny-1) : id + grid.nx)` -/
def up (c : Cell) : Int :=
  if c.id + c.grid.nx ≥ c.grid.ncells then c.id - c.grid.nx * (c.grid.ny - 1)
  else c.id + c.grid.nx

/-- Source: `(id-grid.nx < 0 ? id+grid.nx*(grid.ny-1) : id-grid.nx)` -/
def down (c : Cell) : Int :=
  if c.id - c.grid.nx < 0 then c.id + c.grid.nx * (c.grid.ny - 1) else c.id - c.grid.nx

/-- Source: `id + (id + grid.nx >= grid.ncells ? -grid.nx*(grid.ny-1) : grid.nx)
+ (id % grid.nx == 0 ? grid.nx-1 : -1)` -/
def upleft (c : Cell) : Int :=
  c.id + (if c.id + c.grid.nx ≥ c.grid.ncells then -c.grid.nx * (c.grid.ny - 1) else c.grid.nx)
    + (if Int.tmod c.id c.grid.nx = 0 then c.grid.nx - 1 else -1)

/-- Source: `id + (id + grid.nx >= grid.ncells ? -grid.nx*(grid.ny-1) : grid.nx)
+ ((id+1)%grid.nx == 0 ? -grid.nx+1 : 1)` -/
def upright (c : Cell) : Int :=
  c.id + (if c.id + c.grid.nx ≥ c.grid.ncells then -c.grid.nx * (c.grid.ny - 1) else c.grid.nx)
    + (if Int.tmod (c.id + 1) c.grid.nx = 0 then -c.grid.nx + 1 else 1)

/-- Source: `id + (id-grid.nx < 0 ? grid.nx*(grid.ny-1) : -grid.nx)
+ (id%grid.nx == 0 ? grid.nx-1 : -1)` -/
def downleft (c : Cell) : Int :=
  c.id + (if c.id - c.grid.nx < 0 then c.grid.nx * (c.grid.ny - 1) else -c.grid.nx)
    + (if Int.tmod c.id c.grid.nx = 0 then c.grid.nx - 1 else -1)

/-- Source: `id + (id+grid.nx <0 ? grid.nx*(grid.ny-1) : -grid.nx)
+ ((id+1)%grid.nx == 0 ? -grid.nx+1 : 1)`; the first test reads `id+grid.nx`. -/
def downright (c : Cell) : Int :=
  c.id + (if c.id + c.grid.nx < 0 then c.grid.nx * (c.grid.ny - 1) else -c.grid.nx)
    + (if Int.tmod (c.id + 1) c.grid.nx = 0 then -c.grid.nx + 1 else 1)

/-- Source: `int self() { return id; }` -/
def self (c : Cell) : Int := c.id

/-- Source: `bool at_top_boundary() {return (id + grid.nx >= grid.ncells);}` -/
def at_top_boundary (c : Cell) : Bool := decide (c.id + c.grid.nx ≥ c.grid.ncells)

/-- Source: `bool at_bottom_boundary() {return (id-grid.nx < 0);}` -/
def at_bottom_boundary (c : Cell) : Bool := decide (c.id - c.grid.nx < 0)

/-- Source: `bool at_left_boundary() {return (id%grid.nx == 0);}` -/
def at_left_boundary (c : Cell) : Bool := decide (Int.tmod c.id c.grid.nx = 0)

/-- Source: `bool at_right_boundary() {return (id+1)%grid.nx == 0;}` -/
def at_right_boundary (c : Cell) : Bool := decide (Int.tmod (c.id + 1) c.grid.nx = 0)

/-- Source: `at_top_boundary() || at_bottom_boundary() || at_left_boundary() || at_right_boundary()` -/
def at_boundary (c : Cell) : Bool :=
  c.at_top_boundary || c.at_bottom_boundary || c.at_left_boundary || c.at_right_boundary

/-- Source: `p.x = xindex()*grid.dx + grid.dx/2.0; p.y = yindex()*grid.dy + grid.dy/2.0` -/
def center (c : Cell) : Point :=
  { x := (c.xindex : ℚ) * c.grid.dx + c.grid.dx / 2
    y := (c.yindex : ℚ) * c.grid.dy + c.grid.dy / 2 }

/-- Source: `p.x = xindex()*grid.dx; p.y = yindex()*grid.dy` -/
def corner (c : Cell) : Point :=
  { x := (c.xindex : ℚ) * c.grid.dx
    y := (c.yindex : ℚ) * c.grid.dy }

/-- Source: `p.x = xindex()*grid.dx + grid.dx/2.0; p.y = yindex()*grid.dy` -/
def hface (c : Cell) : Point :=
  { x := (c.xindex : ℚ) * c.grid.dx + c.grid.dx / 2
    y := (c.yindex : ℚ) * c.grid.dy }

/-- Source: `p.x = xindex()*grid.dx; p.y = yindex()*grid.dy + grid.dy/2.0` -/
def vface (c : Cell) : Point :=
  { x := (c.xindex : ℚ) * c.grid.dx
    y := (c.yindex : ℚ) * c.grid.dy + c.grid.dy / 2 }

end Cell

/-- The class `iterator`: members `id`, `grid`, `c` in declaration order. -/
structure iterator where
  id : Int
  grid : StaggeredGrid
  c : Cell
  deriving DecidableEq

namespace iterator

/-- Source: `iterator(int i, const StaggeredGrid& g): id(i), grid(g), c(id,grid)` -/
def ctor (i : Int) (g : StaggeredGrid) : iterator :=
  { id := i, grid := g, c := Cell.ctor i g }

/-- Source: `iterator& operator++() { ++id; ++c.id; return (*this);}` -/
def operator_inc (it : iterator) : iterator :=
  { it with id := it.id + 1, c := { it.c with id := it.c.id + 1 } }

/-- Source: `bool operator==(const iterator &rhs) {return id == rhs.id; }` -/
def operator_eq (it rhs : iterator) : Bool := decide (it.id = rhs.id)

/-- Source: `bool operator!=(const iterator &rhs) {return id != rhs.id; }` -/
def operator_ne (it rhs : iterator) : Bool := decide (it.id ≠ rhs.id)

/-- Source: `Cell &operator*() {return c;}` -/
def operator_deref (it : iterator) : Cell := it.c

/-- The loop `for (it = first; it != last; ++it) visit((*it).self());` run for at
most `fuel` tests of the loop condition: the visited ids, or `none` when the
fuel is used up before `it` compares equal to `last`. -/
def traverse : Nat → iterator → iterator → Option (List Int)
  | 0, _, _ => none
  | fuel + 1, it, last =>
    if it.operator_ne last then
      (traverse fuel it.operator_inc last).map (fun rest => it.operator_deref.self :: rest)
    else some []

end iterator

/-- The class `reverse_iterator`: members `id`, `grid`, `c` in declaration order. -/
structure reverse_iterator where
  id : Int
  grid : StaggeredGrid
  c : Cell
  deriving DecidableEq

namespace reverse_iterator

/-- Source: `reverse_iterator(int i, const StaggeredGrid& g): id(i), grid(g), c(id,grid)` -/
def ctor (i : Int) (g : StaggeredGrid) : reverse_iterator :=
  { id := i, grid := g, c := Cell.ctor i g }

/-- Source: `reverse_iterator& operator++() { --id; --c.id; return (*this);}` -/
def operator_inc (it : reverse_iterator) : reverse_iterator :=
  { it with id := it.id - 1, c := { it.c with id := it.c.id - 1 } }

/-- Source: `bool operator==(const reverse_iterator &rhs) {return id == rhs.id; }` -/
def operator_eq (it rhs : reverse_iterator) : Bool := decide (it.id = rhs.id)

/-- Source: `bool operator!=(const reverse_iterator &rhs) {return id != rhs.id; }` -/
def operator_ne (it rhs : reverse_iterator) : Bool := decide (it.id ≠ rhs.id)

/-- Source: `Cell &operator*() {return c;}` -/
def operator_deref (it : reverse_iterator) : Cell := it.c

end reverse_iterator

/-- Source: `const iterator begin() { return iterator(0, *this); }` -/
def begin (g : StaggeredGrid) : iterator := iterator.ctor 0 g

/-- Source: `const iterator end() {return iterator(ncells, *this);}` -/
def end_ (g : StaggeredGrid) : iterator := iterator.ctor g.ncells g

/-- Source: `const iterator rbegin() { return iterator(ncells-1, *this); }`: the return
type is `iterator`, not `reverse_iterator`. -/
def rbegin (g : StaggeredGrid) : iterator := iterator.ctor (g.ncells - 1) g

/-- Source: `const iterator rend() {return iterator(-1, *this);}`: the return type is
`iterator`, not `reverse_iterator`. -/
def rend (g : StaggeredGrid) : iterator := iterator.ctor (-1) g

/-- Source: `nx*(yindex < 0 ? 0 : (yindex >= ny ? ny-1: yindex))
+ (xindex < 0 ? 0 : (xindex >= nx ? nx-1 : xindex))` -/
def keep_in_domain (g : StaggeredGrid) (xindex yindex : Int) : Int :=
  g.nx * (if yindex < 0 then 0 else if yindex ≥ g.ny then g.ny - 1 else yindex)
    + (if xindex < 0 then 0 else if xindex ≥ g.nx then g.nx - 1 else xindex)

/-- Source: `int xindex = (p.x/dx); int yindex=(p.y/dy); return keep_in_domain(xindex, yindex);` -/
def cell_id (g : StaggeredGrid) (p : Point) : Int :=
  let xindex := truncToInt (p.x / g.dx)
  let yindex := truncToInt (p.y / g.dy)
  g.keep_in_domain xindex yindex

/-- Source: `iterator cell_at_point( const Point &p) { return iterator(cell_id(p), *this); }` -/
def cell_at_point (g : StaggeredGrid) (p : Point) : iterator :=
  iterator.ctor (g.cell_id p) g

/-- Source: `iterator lower_left_corner_cell( const Point &p) { return cell_at_point(p); }` -/
def lower_left_corner_cell (g : StaggeredGrid) (p : Point) : iterator :=
  g.cell_at_point p

/-- Source: `Point p2 = p; p2.x-= dx*0.5; return cell_at_point(p2);` -/
def lower_left_hface_cell (g : StaggeredGrid) (p : Point) : iterator :=
  let p2 : Point := { p with x := p.x - g.dx * (1 / 2) }
  g.cell_at_point p2

/-- Source: `Point p2 = p; p2.y-= dy*0.5; return cell_at_point(p2);` -/
def lower_left_vface_cell (g : StaggeredGrid) (p : Point) : iterator :=
  let p2 : Point := { p with y := p.y - g.dy * (1 / 2) }
  g.cell_at_point p2

/-- Source: `Point p2 = p; p2.y-= dy*0.5; p2.x-= dx/2.0; return cell_at_point(p2);` -/
def lower_left_center_cell (g : StaggeredGrid) (p : Point) : iterator :=
  let p2 : Point := { p with y := p.y - g.dy * (1 / 2) }
  let p3 : Point := { p2 with x := p2.x - g.dx / 2 }
  g.cell_at_point p3

end StaggeredGrid

/-- The grid of the specification's examples: `lx = ly = 1.0`, `nx = 4`, `ny = 3`. -/
def grid43 : StaggeredGrid := StaggeredGrid.ctor 1 1 4 3

/-- Source: `lagrange_interp_2d(x, y, ul, u, ur, l, c, r, dl, d, dr)`: the nine
products of a sample with its polynomial, summed in the order of the source. -/
def lagrange_interp_2d (x y ul u ur l c r dl d dr : ℚ) : ℚ :=
  let x2 := x * x
  let y2 := y * y
  let xy := x * y
  let x2y2 := x2 * y2
  let xy2 := x * y2
  let x2y := x2 * y
  ul * (x2y2 + x2y - xy2 - xy) * (1 / 4)
    - u * (x2y2 + x2y - y2 - y) * (1 / 2)
    + ur * (x2y2 + x2y + xy2 + xy) * (1 / 4)
    - l * (x2y2 - x2 - xy2 + x) * (1 / 2)
    + c * (x2y2 - x2 - y2 + 1)
    - r * (x2y2 + -x2 + xy2 - x) * (1 / 2)
    + dl * (x2y2 - x2y - xy2 + xy) * (1 / 4)
    - d * (x2y2 - x2y - y2 + y) * (1 / 2)
    + dr * (x2y2 - x2y + xy2 - xy) * (1 / 4)

/-- Source: `- ul * (x-1.0) * (y) + ur * (x) * (y) + dl * (x-1.0) * (y-1.0)
- dr * (x) * (y-1.0)` -/
def linear_interp_2d (x y ul ur dl dr : ℚ) : ℚ :=
  - ul * (x - 1) * y
    + ur * x * y
    + dl * (x - 1) * (y - 1)
    - dr * x * (y - 1)

/-- Clamping of an index into `[lo, hi]`, in the words of the specification. -/
def clampIndex (v lo hi : Int) : Int := max lo (min v hi)

/-- The cell id in the words of the specification: `xi = floor(point.x/dx)`,
`yi = floor(point.y/dy)`, each clamped into `[0, nx-1]` and `[0, ny-1]`, and
combined row-major. -/
def spec_cell_id (g : StaggeredGrid) (p : Point) : Int :=
  g.nx * clampIndex ⌊p.y / g.dy⌋ 0 (g.ny - 1) + clampIndex ⌊p.x / g.dx⌋ 0 (g.nx - 1)

/-- The factored closed form kept in the comment at the end of the body of
`lagrange_interp_2d` in the source, term by term. -/
def lagrange_interp_2d_factored (x y ul u ur l c r dl d dr : ℚ) : ℚ :=
  ul * x * (x - 1) * y * (y + 1) / 4
    - u * (x - 1) * (x + 1) * y * (y + 1) / 2
    + ur * (x + 1) * x * y * (y + 1) / 4
    - l * x * (x - 1) * (y - 1) * (y + 1) / 2
    + c * (x - 1) * (x + 1) * (y - 1) * (y + 1)
    - r * (x + 1) * x * (y - 1) * (y + 1) / 2
    + dl * x * (x - 1) * y * (y - 1) / 4
    - d * (x - 1) * (x + 1) * y * (y - 1) / 2
    + dr * x * (x + 1) * y * (y - 1) / 4

/-- A biquadratic field: the polynomial `sum a_ij x^i y^j` over `i, j` in
`{0, 1, 2}`, with `a i j` the coefficient of `x^i y^j`. -/
def biquadratic (a : Fin 3 → Fin 3 → ℚ) (x y : ℚ) : ℚ :=
  a 0 0 + a 0 1 * y + a 0 2 * y ^ 2
    + a 1 0 * x + a 1 1 * x * y + a 1 2 * x * y ^ 2
    + a 2 0 * x ^ 2 + a 2 1 * x ^ 2 * y + a 2 2 * x ^ 2 * y ^ 2

/-- Source: `int xindex = (p.x/dx); int yindex=(p.y/dy); return keep_in_domain(xindex, yindex);`
with the two conversions to `int` limited to the 32-bit range (`toInt32`). -/
def StaggeredGrid.cell_id_int32 (g : StaggeredGrid) (p : Point) : Int :=
  let xindex := toInt32 (p.x / g.dx)
  let yindex := toInt32 (p.y / g.dy)
  g.keep_in_domain xindex yindex

/-! ## Integer facts behind the index arithmetic -/

section IntLemmas

theorem cell_row_col (nx ny id : Int) (hx : 1 ≤ nx) (h0 : 0 ≤ id)
    (h1 : id < nx * ny) :
    0 ≤ id % nx ∧ id % nx < nx ∧ 0 ≤ id / nx ∧ id / nx < ny ∧
      nx * (id / nx) + id % nx = id := by
  have hpos : 0 < nx := by omega
  refine ⟨Int.emod_nonneg _ (by omega), Int.emod_lt_of_pos _ hpos,
    Int.ediv_nonneg h0 (by omega), ?_, Int.ediv_add_emod id nx⟩
  apply Int.ediv_lt_of_lt_mul hpos
  rw [Int.mul_comm]; exact h1

theorem succ_emod_eq_zero_iff (nx id : Int) (hx : 1 ≤ nx) :
    (id + 1) % nx = 0 ↔ id % nx = nx - 1 := by
  have hpos : 0 < nx := by omega
  have hr0 := Int.emod_nonneg id (show nx ≠ 0 by omega)
  have hr1 := Int.emod_lt_of_pos id hpos
  rw [← Int.emod_add_emod]
  constructor
  · intro h
    by_contra hne
    have hlt : id % nx + 1 < nx := by omega
    rw [Int.emod_eq_of_lt (by omega) hlt] at h
    omega
  · intro h
    rw [h]
    simp

theorem top_row_iff (nx ny x y : Int) (hx : 1 ≤ nx) (hx0 : 0 ≤ x) (hx1 : x < nx)
    (hy1 : y < ny) : nx * y + x + nx ≥ nx * ny ↔ y = ny - 1 := by
  constructor
  · intro h
    by_contra hne
    have h2 : y + 2 ≤ ny := by omega
    have h3 : nx * (y + 2) ≤ nx * ny := Int.mul_le_mul_of_nonneg_left h2 (by omega)
    rw [Int.mul_add] at h3
    omega
  · intro h
    subst h
    rw [Int.mul_sub]
    omega

theorem bottom_row_iff (nx x y : Int) (hx : 1 ≤ nx) (hx0 : 0 ≤ x) (hx1 : x < nx)
    (hy0 : 0 ≤ y) : nx * y + x - nx < 0 ↔ y = 0 := by
  constructor
  · intro h
    by_contra hne
    have h2 : 1 ≤ y := by omega
    have h3 : nx * 1 ≤ nx * y := Int.mul_le_mul_of_nonneg_left h2 (by omega)
    omega
  · intro h
    subst h
    omega

end IntLemmas

namespace StaggeredGrid

/-- Row and column of a valid id, and the four tests of the neighbour and
boundary code expressed through them. -/
theorem Cell.tests (g : StaggeredGrid) (id : Int) (hx : 1 ≤ g.nx)
    (hn : g.ncells = g.nx * g.ny) (h0 : 0 ≤ id) (h1 : id < g.ncells) :
    ∃ x y : Int, id = g.nx * y + x ∧ 0 ≤ x ∧ x < g.nx ∧ 0 ≤ y ∧ y < g.ny ∧
      id % g.nx = x ∧ id / g.nx = y ∧
      Int.tmod id g.nx = x ∧ Int.tdiv id g.nx = y ∧
      (Int.tmod (id + 1) g.nx = 0 ↔ x = g.nx - 1) ∧
      (id + g.nx ≥ g.ncells ↔ y = g.ny - 1) ∧
      (id - g.nx < 0 ↔ y = 0) := by
  rw [hn] at h1
  obtain ⟨a, b, c, d, e⟩ := cell_row_col g.nx g.ny id hx h0 h1
  refine ⟨id % g.nx, id / g.nx, e.symm, a, b, c, d, rfl, rfl,
    Int.tmod_eq_emod h0 (by omega), Int.tdiv_eq_ediv h0 (by omega), ?_, ?_, ?_⟩
  · rw [Int.tmod_eq_emod (by omega) (by omega)]
    exact succ_emod_eq_zero_iff g.nx id hx
  · rw [hn]
    have := top_row_iff g.nx g.ny (id % g.nx) (id / g.nx) hx a b d
    rw [e] at this
    exact this
  · have := bottom_row_iff g.nx (id % g.nx) (id / g.nx) hx a b c
    rw [e] at this
    exact this

end StaggeredGrid

namespace StaggeredGrid

/-- The products that occur in the neighbour arithmetic, bounded linearly. -/
theorem Cell.row_bounds (nx ny y : Int) (hx : 1 ≤ nx) (hy0 : 0 ≤ y) (hy1 : y < ny) :
    0 ≤ nx * y ∧ nx * y + nx ≤ nx * ny ∧ (y = 0 → nx * y = 0) ∧
      (y = ny - 1 → nx * y = nx * ny - nx) ∧ (1 ≤ y → nx ≤ nx * y) ∧
      (y + 2 ≤ ny → nx * y + 2 * nx ≤ nx * ny) := by
  have hnx : 0 ≤ nx := by omega
  refine ⟨Int.mul_nonneg hnx hy0, ?_, fun h => by rw [h, Int.mul_zero],
    fun h => by rw [h, Int.mul_sub, Int.mul_one], ?_, ?_⟩
  · have h : nx * (y + 1) ≤ nx * ny := Int.mul_le_mul_of_nonneg_left (by omega) hnx
    rw [Int.mul_add] at h
    omega
  · intro h1
    have h : nx * 1 ≤ nx * y := Int.mul_le_mul_of_nonneg_left h1 hnx
    omega
  · intro h2
    have h : nx * (y + 2) ≤ nx * ny := Int.mul_le_mul_of_nonneg_left h2 hnx
    rw [Int.mul_add] at h
    omega

/-- The two products of the source written as differences. -/
theorem Cell.wrap_products (nx ny : Int) :
    nx * (ny - 1) = nx * ny - nx ∧ -nx * (ny - 1) = -(nx * ny) + nx :=
  ⟨by ring, by ring⟩

/-- Seven of the eight neighbour operations stay inside `[0, ncells)`:
`left`, `right`, `up`, `down`, `upleft`, `upright` and `downleft`. -/
theorem Cell.seven_neighbours_in_range (g : StaggeredGrid) (id : Int) (hx : 1 ≤ g.nx)
    (hn : g.ncells = g.nx * g.ny) (h0 : 0 ≤ id) (h1 : id < g.ncells) :
    (0 ≤ (Cell.ctor id g).left ∧ (Cell.ctor id g).left < g.ncells) ∧
    (0 ≤ (Cell.ctor id g).right ∧ (Cell.ctor id g).right < g.ncells) ∧
    (0 ≤ (Cell.ctor id g).up ∧ (Cell.ctor id g).up < g.ncells) ∧
    (0 ≤ (Cell.ctor id g).down ∧ (Cell.ctor id g).down < g.ncells) ∧
    (0 ≤ (Cell.ctor id g).upleft ∧ (Cell.ctor id g).upleft < g.ncells) ∧
    (0 ≤ (Cell.ctor id g).upright ∧ (Cell.ctor id g).upright < g.ncells) ∧
    (0 ≤ (Cell.ctor id g).downleft ∧ (Cell.ctor id g).downleft < g.ncells) := by
  obtain ⟨x, y, hid, hx0, hx1, hy0, hy1, -, -, htm, -, hr, ht, hb⟩ :=
    Cell.tests g id hx hn h0 h1
  obtain ⟨b0, b1, b2, b3, b4, b5⟩ := Cell.row_bounds g.nx g.ny y hx hy0 hy1
  obtain ⟨w1, w2⟩ := Cell.wrap_products g.nx g.ny
  simp only [Cell.left, Cell.right, Cell.up, Cell.down, Cell.upleft, Cell.upright,
    Cell.downleft, Cell.ctor, htm, hr, ht, hb, w1, w2]
  rw [hn]
  clear w1 w2 hr ht hb htm
  refine ⟨?_, ?_, ?_, ?_, ?_, ?_, ?_⟩ <;> split_ifs <;> omega

end StaggeredGrid

section WrapLemmas

/-- Stepping a residue down by one, modulo `n`. -/
theorem pred_emod_wrap (n r : Int) (hr0 : 0 ≤ r) (hr1 : r < n) :
    (r - 1) % n = if r = 0 then n - 1 else r - 1 := by
  split_ifs with h
  · subst h
    have e : (0 - 1 : Int) = (n - 1) + (-1) * n := by ring
    rw [e, Int.add_mul_emod_self]
    exact Int.emod_eq_of_lt (by omega) (by omega)
  · exact Int.emod_eq_of_lt (by omega) (by omega)

/-- Stepping a residue up by one, modulo `n`. -/
theorem succ_emod_wrap (n r : Int) (hr0 : 0 ≤ r) (hr1 : r < n) :
    (r + 1) % n = if r = n - 1 then 0 else r + 1 := by
  split_ifs with h
  · subst h
    simp
  · exact Int.emod_eq_of_lt (by omega) (by omega)

end WrapLemmas

namespace StaggeredGrid

/-- On the bottom row `downright` is negative, on every other row it lies in
`[0, ncells)` and is the `down` of the `right` neighbour. -/
theorem Cell.downright_by_row (g : StaggeredGrid) (id : Int) (hx : 1 ≤ g.nx)
    (hn : g.ncells = g.nx * g.ny) (h0 : 0 ≤ id) (h1 : id < g.ncells) :
    (id < g.nx → (Cell.ctor id g).downright < 0) ∧
    (g.nx ≤ id → 0 ≤ (Cell.ctor id g).downright ∧ (Cell.ctor id g).downright < g.ncells ∧
      (Cell.ctor id g).downright = (Cell.ctor (Cell.ctor id g).right g).down) := by
  obtain ⟨x, y, hid, hx0, hx1, hy0, hy1, -, -, htm, -, hr, ht, hb⟩ :=
    Cell.tests g id hx hn h0 h1
  obtain ⟨b0, b1, b2, b3, b4, b5⟩ := Cell.row_bounds g.nx g.ny y hx hy0 hy1
  obtain ⟨w1, w2⟩ := Cell.wrap_products g.nx g.ny
  have hneg : ¬ (id + g.nx < 0) := by omega
  simp only [Cell.right, Cell.down, Cell.downright, Cell.ctor, hr, hneg, if_false, w1]
  rw [hn]
  clear w1 w2 hr ht hb htm
  refine ⟨?_, ?_⟩
  · intro h; split_ifs <;> omega
  · intro h
    refine ⟨?_, ?_, ?_⟩ <;> split_ifs <;> omega

/-- The diagonals `upleft`, `upright` and `downleft` are the vertical wrap of
the horizontal neighbour. -/
theorem Cell.three_diagonals_compose (g : StaggeredGrid) (id : Int) (hx : 1 ≤ g.nx)
    (hn : g.ncells = g.nx * g.ny) (h0 : 0 ≤ id) (h1 : id < g.ncells) :
    (Cell.ctor id g).upleft = (Cell.ctor (Cell.ctor id g).left g).up ∧
    (Cell.ctor id g).upright = (Cell.ctor (Cell.ctor id g).right g).up ∧
    (Cell.ctor id g).downleft = (Cell.ctor (Cell.ctor id g).left g).down := by
  obtain ⟨x, y, hid, hx0, hx1, hy0, hy1, -, -, htm, -, hr, ht, hb⟩ :=
    Cell.tests g id hx hn h0 h1
  obtain ⟨b0, b1, b2, b3, b4, b5⟩ := Cell.row_bounds g.nx g.ny y hx hy0 hy1
  obtain ⟨w1, w2⟩ := Cell.wrap_products g.nx g.ny
  simp only [Cell.left, Cell.right, Cell.up, Cell.down, Cell.upleft, Cell.upright,
    Cell.downleft, Cell.ctor, htm, hr, ht, hb, w1, w2]
  rw [hn]
  clear w1 w2 hr ht hb htm
  refine ⟨?_, ?_, ?_⟩ <;> split_ifs <;> omega

end StaggeredGrid

/-! ## Claims -/

namespace StaggeredGrid

/-- C1 (defect in `downright`): on the 4 x 3 grid, whose ids are `0..11`, the
valid cell id 0 has `downright() = -3`, which is not an id in `[0, ncells)`;
the other seven neighbours of that cell are in range. -/
theorem Cell.downright_leaves_range_at_origin :
    grid43.nx = 4 ∧ grid43.ny = 3 ∧ grid43.ncells = 12 ∧
    (Cell.ctor 0 grid43).downright = -3 ∧
    ¬ (0 ≤ (Cell.ctor 0 grid43).downright ∧ (Cell.ctor 0 grid43).downright < grid43.ncells) ∧
    (Cell.ctor 0 grid43).left = 3 ∧ (Cell.ctor 0 grid43).right = 1 ∧
    (Cell.ctor 0 grid43).up = 4 ∧ (Cell.ctor 0 grid43).down = 8 ∧
    (Cell.ctor 0 grid43).upleft = 7 ∧ (Cell.ctor 0 grid43).upright = 5 ∧
    (Cell.ctor 0 grid43).downleft = 11 := by
  decide

/-- C7: for a grid with `nx, ny ≥ 1` and a valid id with column `x = id mod nx`
and row `y = id div nx`, `left` is `y*nx + ((x-1) mod nx)`, `right` is
`y*nx + ((x+1) mod nx)`, `up` is `((y+1) mod ny)*nx + x` and `down` is
`((y-1) mod ny)*nx + x`, with the non-negative remainder; on the 4 x 3 grid
`left(0) = 3`, `right(3) = 0`, `up` maps `8..11` to `0..3` and `down` maps
`0..3` to `8..11`. -/
theorem Cell.axis_neighbours_wrap (g : StaggeredGrid) (id : Int) (hx : 1 ≤ g.nx)
    (_hy : 1 ≤ g.ny) (hn : g.ncells = g.nx * g.ny) (h0 : 0 ≤ id) (h1 : id < g.ncells) :
    ((Cell.ctor id g).left = (id / g.nx) * g.nx + (id % g.nx - 1) % g.nx ∧
     (Cell.ctor id g).right = (id / g.nx) * g.nx + (id % g.nx + 1) % g.nx ∧
     (Cell.ctor id g).up = ((id / g.nx + 1) % g.ny) * g.nx + id % g.nx ∧
     (Cell.ctor id g).down = ((id / g.nx - 1) % g.ny) * g.nx + id % g.nx) ∧
    ((Cell.ctor 0 grid43).left = 3 ∧ (Cell.ctor 3 grid43).right = 0 ∧
     (∀ k : Int, 8 ≤ k → k ≤ 11 → (Cell.ctor k grid43).up = k - 8) ∧
     (∀ k : Int, 0 ≤ k → k ≤ 3 → (Cell.ctor k grid43).down = k + 8)) := by
  obtain ⟨x, y, hid, hx0, hx1, hy0, hy1, hm, hd, htm, -, hr, ht, hb⟩ :=
    Cell.tests g id hx hn h0 h1
  obtain ⟨b0, b1, b2, b3, b4, b5⟩ := Cell.row_bounds g.nx g.ny y hx hy0 hy1
  obtain ⟨w1, w2⟩ := Cell.wrap_products g.nx g.ny
  refine ⟨?_, by decide, by decide, ?_, ?_⟩
  · simp only [Cell.left, Cell.right, Cell.up, Cell.down, Cell.ctor, htm, hr, ht, hb, w1,
      hm, hd, pred_emod_wrap g.nx x hx0 hx1, succ_emod_wrap g.nx x hx0 hx1,
      pred_emod_wrap g.ny y hy0 hy1, succ_emod_wrap g.ny y hy0 hy1]
    clear w1 w2 hr ht hb htm hm hd
    refine ⟨?_, ?_, ?_, ?_⟩ <;> split_ifs <;>
      simp only [Int.zero_mul, Int.sub_mul, Int.add_mul, Int.one_mul, Int.mul_comm y g.nx,
        Int.mul_comm g.ny g.nx] <;>
      omega
  · intro k hk0 hk1
    simp only [Cell.up, Cell.ctor, grid43, StaggeredGrid.ctor]
    split_ifs <;> omega
  · intro k hk0 hk1
    simp only [Cell.down, Cell.ctor, grid43, StaggeredGrid.ctor]
    split_ifs <;> omega

/-- Witness for C7: the 4 x 3 grid at id 5. -/
theorem Cell.axis_neighbours_wrap_witness :
    (1 ≤ grid43.nx ∧ 1 ≤ grid43.ny ∧ grid43.ncells = grid43.nx * grid43.ny ∧
      (0 : Int) ≤ 5 ∧ (5 : Int) < grid43.ncells) ∧
    (((Cell.ctor 5 grid43).left = (5 / grid43.nx) * grid43.nx + (5 % grid43.nx - 1) % grid43.nx ∧
     (Cell.ctor 5 grid43).right = (5 / grid43.nx) * grid43.nx + (5 % grid43.nx + 1) % grid43.nx ∧
     (Cell.ctor 5 grid43).up = ((5 / grid43.nx + 1) % grid43.ny) * grid43.nx + 5 % grid43.nx ∧
     (Cell.ctor 5 grid43).down = ((5 / grid43.nx - 1) % grid43.ny) * grid43.nx + 5 % grid43.nx) ∧
    ((Cell.ctor 0 grid43).left = 3 ∧ (Cell.ctor 3 grid43).right = 0 ∧
     (∀ k : Int, 8 ≤ k → k ≤ 11 → (Cell.ctor k grid43).up = k - 8) ∧
     (∀ k : Int, 0 ≤ k → k ≤ 3 → (Cell.ctor k grid43).down = k + 8))) :=
  ⟨by decide, Cell.axis_neighbours_wrap grid43 5 (by decide) (by decide) (by decide)
    (by decide) (by decide)⟩

end StaggeredGrid

namespace StaggeredGrid

/-- C8 (defect in `downright`): on the 4 x 3 grid at the valid id 0, the `right`
neighbour is 1 and its `down` is 9, but `downright()` is -3; the other three
diagonals of that cell are the compositions `up(left)`, `up(right)`, `down(left)`. -/
theorem Cell.downright_differs_from_down_of_right :
    (Cell.ctor 0 grid43).right = 1 ∧ (Cell.ctor 1 grid43).down = 9 ∧
    (Cell.ctor 0 grid43).downright = -3 ∧
    (Cell.ctor 0 grid43).downright ≠ (Cell.ctor (Cell.ctor 0 grid43).right grid43).down ∧
    (Cell.ctor 0 grid43).upleft = (Cell.ctor (Cell.ctor 0 grid43).left grid43).up ∧
    (Cell.ctor 0 grid43).upright = (Cell.ctor (Cell.ctor 0 grid43).right grid43).up ∧
    (Cell.ctor 0 grid43).downleft = (Cell.ctor (Cell.ctor 0 grid43).left grid43).down := by
  decide

/-- C9: for a grid with `nx, ny ≥ 1` and a valid id, `at_left_boundary` holds
exactly when `xindex() = 0`, `at_right_boundary` exactly when `xindex() = nx-1`,
`at_bottom_boundary` exactly when `yindex() = 0`, `at_top_boundary` exactly when
`yindex() = ny-1`, and `at_boundary` is the disjunction of the four; on the
4 x 3 grid the bottom flag holds exactly for ids `0..3` and the top flag exactly
for ids `8..11`. -/
theorem Cell.boundary_flags (g : StaggeredGrid) (id : Int) (hx : 1 ≤ g.nx)
    (_hy : 1 ≤ g.ny) (hn : g.ncells = g.nx * g.ny) (h0 : 0 ≤ id) (h1 : id < g.ncells) :
    (((Cell.ctor id g).at_left_boundary = true ↔ (Cell.ctor id g).xindex = 0) ∧
     ((Cell.ctor id g).at_right_boundary = true ↔ (Cell.ctor id g).xindex = g.nx - 1) ∧
     ((Cell.ctor id g).at_bottom_boundary = true ↔ (Cell.ctor id g).yindex = 0) ∧
     ((Cell.ctor id g).at_top_boundary = true ↔ (Cell.ctor id g).yindex = g.ny - 1) ∧
     ((Cell.ctor id g).at_boundary = true ↔
        ((Cell.ctor id g).xindex = 0 ∨ (Cell.ctor id g).xindex = g.nx - 1 ∨
         (Cell.ctor id g).yindex = 0 ∨ (Cell.ctor id g).yindex = g.ny - 1))) ∧
    (∀ k : Int, 0 ≤ k → k < 12 →
      (((Cell.ctor k grid43).at_bottom_boundary = true ↔ k ≤ 3) ∧
       ((Cell.ctor k grid43).at_top_boundary = true ↔ 8 ≤ k))) := by
  obtain ⟨x, y, hid, hx0, hx1, hy0, hy1, -, -, htm, htd, hr, ht, hb⟩ :=
    Cell.tests g id hx hn h0 h1
  refine ⟨?_, ?_⟩
  · simp only [Cell.at_left_boundary, Cell.at_right_boundary, Cell.at_bottom_boundary,
      Cell.at_top_boundary, Cell.at_boundary, Cell.xindex, Cell.yindex, Cell.ctor, htm, htd,
      hr, ht, hb, decide_eq_true_eq, Bool.or_eq_true]
    tauto
  · intro k hk0 hk1
    simp only [Cell.at_bottom_boundary, Cell.at_top_boundary, Cell.ctor, grid43,
      StaggeredGrid.ctor, decide_eq_true_eq]
    constructor <;> constructor <;> intro h <;> omega

/-- Witness for C9: the 4 x 3 grid at id 5. -/
theorem Cell.boundary_flags_witness :
    (1 ≤ grid43.nx ∧ 1 ≤ grid43.ny ∧ grid43.ncells = grid43.nx * grid43.ny ∧
      (0 : Int) ≤ 5 ∧ (5 : Int) < grid43.ncells) ∧
    ((((Cell.ctor 5 grid43).at_left_boundary = true ↔ (Cell.ctor 5 grid43).xindex = 0) ∧
     ((Cell.ctor 5 grid43).at_right_boundary = true ↔
        (Cell.ctor 5 grid43).xindex = grid43.nx - 1) ∧
     ((Cell.ctor 5 grid43).at_bottom_boundary = true ↔ (Cell.ctor 5 grid43).yindex = 0) ∧
     ((Cell.ctor 5 grid43).at_top_boundary = true ↔
        (Cell.ctor 5 grid43).yindex = grid43.ny - 1) ∧
     ((Cell.ctor 5 grid43).at_boundary = true ↔
        ((Cell.ctor 5 grid43).xindex = 0 ∨ (Cell.ctor 5 grid43).xindex = grid43.nx - 1 ∨
         (Cell.ctor 5 grid43).yindex = 0 ∨ (Cell.ctor 5 grid43).yindex = grid43.ny - 1))) ∧
    (∀ k : Int, 0 ≤ k → k < 12 →
      (((Cell.ctor k grid43).at_bottom_boundary = true ↔ k ≤ 3) ∧
       ((Cell.ctor k grid43).at_top_boundary = true ↔ 8 ≤ k)))) :=
  ⟨by decide, Cell.boundary_flags grid43 5 (by decide) (by decide) (by decide)
    (by decide) (by decide)⟩

end StaggeredGrid

namespace StaggeredGrid

/-- After `n` applications of `operator++` both the position's id and the id
of its embedded cell have grown by `n`. -/
theorem iterator.iterate_inc (it : iterator) (n : Nat) :
    (iterator.operator_inc^[n] it).id = it.id + n ∧
      (iterator.operator_inc^[n] it).c.id = it.c.id + n := by
  induction n generalizing it with
  | zero => simp
  | succ n ih =>
    rw [Function.iterate_succ_apply]
    obtain ⟨h1, h2⟩ := ih it.operator_inc
    rw [h1, h2]
    simp only [iterator.operator_inc, Nat.cast_add, Nat.cast_one]
    constructor <;> omega

/-- The loop from a position that is `n` ids below `last` ends, once the fuel
exceeds `n`, after visiting the `n` cell ids that start at the embedded cell. -/
theorem iterator.traverse_upto (n : Nat) :
    ∀ (fuel : Nat) (it last : iterator), last.id = it.id + n → n < fuel →
      iterator.traverse fuel it last =
        some ((List.range n).map (fun k : Nat => it.c.id + (k : Int))) := by
  induction n with
  | zero =>
    intro fuel it last h hf
    obtain ⟨f, rfl⟩ : ∃ f, fuel = f + 1 := ⟨fuel - 1, by omega⟩
    have : it.id = last.id := by simpa using h.symm
    simp [iterator.traverse, iterator.operator_ne, this]
  | succ n ih =>
    intro fuel it last h hf
    obtain ⟨f, rfl⟩ : ∃ f, fuel = f + 1 := ⟨fuel - 1, by omega⟩
    have hne : it.id ≠ last.id := by
      rw [h]; push_cast; omega
    have hrec := ih f it.operator_inc last
      (by simp only [iterator.operator_inc]; rw [h]; push_cast; omega) (by omega)
    simp only [iterator.traverse, iterator.operator_ne, hne, ne_eq, not_false_eq_true,
      decide_True, if_true, hrec, Option.map_some', iterator.operator_deref, Cell.self]
    rw [List.range_succ_eq_map, List.map_cons, List.map_map]
    simp only [iterator.operator_inc, Nat.cast_zero, add_zero, Option.some.injEq,
      List.cons.injEq, true_and]
    apply List.map_congr_left
    intro k _
    simp only [Function.comp_apply, Nat.cast_succ]
    omega

/-- The loop never ends when it starts above `last`: every amount of fuel is
used up. -/
theorem iterator.traverse_above (fuel : Nat) :
    ∀ (it last : iterator), last.id < it.id → iterator.traverse fuel it last = none := by
  induction fuel with
  | zero => intro it last _; rfl
  | succ f ih =>
    intro it last h
    have hne : it.id ≠ last.id := by omega
    have hrec := ih it.operator_inc last (by simp only [iterator.operator_inc]; omega)
    simp [iterator.traverse, iterator.operator_ne, hne, hrec]

end StaggeredGrid

namespace StaggeredGrid

/-- After `n` applications of the `operator++` of `reverse_iterator` both ids
have dropped by `n`. -/
theorem reverse_iterator.iterate_dec (it : reverse_iterator) (n : Nat) :
    (reverse_iterator.operator_inc^[n] it).id = it.id - n ∧
      (reverse_iterator.operator_inc^[n] it).c.id = it.c.id - n := by
  induction n generalizing it with
  | zero => simp
  | succ n ih =>
    rw [Function.iterate_succ_apply]
    obtain ⟨h1, h2⟩ := ih it.operator_inc
    rw [h1, h2]
    simp only [reverse_iterator.operator_inc, Nat.cast_add, Nat.cast_one]
    constructor <;> omega

/-- On every grid with at least one cell the loop from `rbegin()` to `rend()`
uses up any amount of fuel. -/
theorem iterator.rbegin_loop_diverges (g : StaggeredGrid) (h : 1 ≤ g.ncells) (fuel : Nat) :
    iterator.traverse fuel g.rbegin g.rend = none := by
  apply iterator.traverse_above
  show (-1 : Int) < g.ncells - 1
  omega

/-- C2 (defect in `rbegin`/`rend`): both return the forward `iterator`, so on
the 4 x 3 grid the position `rbegin()` has id 11, one `operator++` gives id 12
(not 10), no number of steps makes it compare equal to `rend()` (id -1), and
the loop from `rbegin()` to `rend()` does not end for any fuel. -/
theorem iterator.rbegin_steps_upward :
    grid43.rbegin.id = 11 ∧ grid43.rend.id = -1 ∧
    grid43.rbegin.operator_inc.id = 12 ∧
    grid43.rbegin.operator_inc.operator_deref.self = 12 ∧
    (∀ n : Nat, (iterator.operator_inc^[n] grid43.rbegin).id = 11 + (n : Int) ∧
      (iterator.operator_inc^[n] grid43.rbegin).operator_eq grid43.rend = false) ∧
    (∀ fuel : Nat, iterator.traverse fuel grid43.rbegin grid43.rend = none) := by
  refine ⟨by decide, by decide, by decide, by decide, ?_, ?_⟩
  · intro n
    have h := (iterator.iterate_inc grid43.rbegin n).1
    have h11 : grid43.rbegin.id = 11 := by decide
    rw [h11] at h
    refine ⟨h, ?_⟩
    have hend : grid43.rend.id = -1 := by decide
    simp only [iterator.operator_eq, h, hend, decide_eq_false_iff_not]
    omega
  · intro fuel
    exact iterator.rbegin_loop_diverges grid43 (by decide) fuel

/-- C10: for a grid with `nx, ny ≥ 1` the loop from `begin()` to `end()` ends
(for every fuel above `ncells`) having visited, through `self()` of the
dereferenced cell, the ids `0, 1, ..., ncells-1` in this order; the position
first compares equal to `end()` after exactly `ncells` applications of
`operator++`, and before that the position's id and its cell's id agree. -/
theorem iterator.forward_traversal (g : StaggeredGrid) (hx : 1 ≤ g.nx) (hy : 1 ≤ g.ny)
    (hn : g.ncells = g.nx * g.ny) :
    ((g.ncells.toNat : Int) = g.ncells) ∧
    (∀ fuel : Nat, g.ncells.toNat < fuel →
      iterator.traverse fuel g.begin g.end_ =
        some ((List.range g.ncells.toNat).map (fun k : Nat => (k : Int)))) ∧
    ((iterator.operator_inc^[g.ncells.toNat] g.begin).operator_eq g.end_ = true) ∧
    (∀ k : Nat, k < g.ncells.toNat →
      (iterator.operator_inc^[k] g.begin).operator_eq g.end_ = false ∧
      (iterator.operator_inc^[k] g.begin).operator_deref.self = (k : Int) ∧
      (iterator.operator_inc^[k] g.begin).id =
        (iterator.operator_inc^[k] g.begin).operator_deref.self) := by
  have hpos : 0 ≤ g.ncells := by
    rw [hn]; exact Int.mul_nonneg (by omega) (by omega)
  have hcast : (g.ncells.toNat : Int) = g.ncells := Int.toNat_of_nonneg hpos
  have hb : g.begin.id = 0 ∧ g.begin.c.id = 0 := ⟨rfl, rfl⟩
  have he : g.end_.id = g.ncells := rfl
  refine ⟨hcast, ?_, ?_, ?_⟩
  · intro fuel hf
    have h := iterator.traverse_upto g.ncells.toNat fuel g.begin g.end_
      (by rw [he, hb.1, hcast]; omega) hf
    rw [h, hb.2]
    simp
  · obtain ⟨h1, -⟩ := iterator.iterate_inc g.begin g.ncells.toNat
    simp only [iterator.operator_eq, h1, hb.1, he, hcast, zero_add, decide_True]
  · intro k hk
    obtain ⟨h1, h2⟩ := iterator.iterate_inc g.begin k
    simp only [iterator.operator_eq, iterator.operator_deref, Cell.self, h1, h2, hb.1, hb.2,
      he, zero_add, decide_eq_false_iff_not, and_true]
    omega

/-- Witness for C10: the 4 x 3 grid. -/
theorem iterator.forward_traversal_witness :
    (1 ≤ grid43.nx ∧ 1 ≤ grid43.ny ∧ grid43.ncells = grid43.nx * grid43.ny) ∧
    (((grid43.ncells.toNat : Int) = grid43.ncells) ∧
    (∀ fuel : Nat, grid43.ncells.toNat < fuel →
      iterator.traverse fuel grid43.begin grid43.end_ =
        some ((List.range grid43.ncells.toNat).map (fun k : Nat => (k : Int)))) ∧
    ((iterator.operator_inc^[grid43.ncells.toNat] grid43.begin).operator_eq grid43.end_
      = true) ∧
    (∀ k : Nat, k < grid43.ncells.toNat →
      (iterator.operator_inc^[k] grid43.begin).operator_eq grid43.end_ = false ∧
      (iterator.operator_inc^[k] grid43.begin).operator_deref.self = (k : Int) ∧
      (iterator.operator_inc^[k] grid43.begin).id =
        (iterator.operator_inc^[k] grid43.begin).operator_deref.self)) :=
  ⟨by decide, iterator.forward_traversal grid43 (by decide) (by decide) (by decide)⟩

end StaggeredGrid

section ClampLemmas

/-- The clamp of the source, applied to a truncated quotient, is the clamp of
the specification applied to the floor of that quotient. -/
theorem clamp_trunc_eq_clamp_floor (q : ℚ) (n : Int) (hn : 1 ≤ n) :
    (if truncToInt q < 0 then 0 else if truncToInt q ≥ n then n - 1 else truncToInt q)
      = clampIndex ⌊q⌋ 0 (n - 1) := by
  unfold truncToInt clampIndex
  by_cases hq : 0 ≤ q
  · have hf : 0 ≤ ⌊q⌋ := Int.floor_nonneg.mpr hq
    simp only [hq, if_true]
    split_ifs <;> omega
  · have hq' : q < 0 := lt_of_not_ge hq
    have hc : ⌈q⌉ ≤ 0 := Int.ceil_le.mpr (by exact_mod_cast hq'.le)
    have hf : ⌊q⌋ < 0 := Int.floor_lt.mpr (by exact_mod_cast hq')
    simp only [hq, if_false]
    split_ifs <;> omega

end ClampLemmas

namespace StaggeredGrid

/-- For counts `≥ 1` the code's `cell_id` is the specification's. -/
theorem cell_id_eq_spec (g : StaggeredGrid) (p : Point) (hx : 1 ≤ g.nx) (hy : 1 ≤ g.ny) :
    g.cell_id p = spec_cell_id g p := by
  simp only [cell_id, keep_in_domain, spec_cell_id]
  rw [clamp_trunc_eq_clamp_floor _ g.nx hx, clamp_trunc_eq_clamp_floor _ g.ny hy]

/-- The result of `keep_in_domain` is a valid cell id. -/
theorem keep_in_domain_range (g : StaggeredGrid) (hx : 1 ≤ g.nx) (hy : 1 ≤ g.ny)
    (hn : g.ncells = g.nx * g.ny) (xindex yindex : Int) :
    0 ≤ g.keep_in_domain xindex yindex ∧ g.keep_in_domain xindex yindex < g.ncells := by
  have key : ∀ y : Int, 0 ≤ y → y < g.ny →
      ∀ x : Int, 0 ≤ x → x < g.nx → 0 ≤ g.nx * y + x ∧ g.nx * y + x < g.nx * g.ny := by
    intro y hy0 hy1 x hx0 hx1
    obtain ⟨b0, b1, -⟩ := Cell.row_bounds g.nx g.ny y hx hy0 hy1
    constructor <;> omega
  rw [hn]
  unfold keep_in_domain
  apply key
  · split_ifs <;> omega
  · split_ifs <;> omega
  · split_ifs <;> omega
  · split_ifs <;> omega

end StaggeredGrid

namespace StaggeredGrid

end StaggeredGrid

namespace StaggeredGrid

/-- C3 (as stated, refuted): constructing with `numx = 0` (lengths 1, `numy = 3`)
raises no error; the result is a grid with `nx = 0`, `ncells = 0` and `dx` the
quotient of `lx` by `nx = 0`. -/
theorem construct_zero_count_returns_grid :
    construct 1 1 0 3 = Except.ok (ctor 1 1 0 3) ∧
    construct 1 1 0 3 ≠ Except.error ConstructionError.nonPositiveCount ∧
    (ctor 1 1 0 3).nx = 0 ∧ (ctor 1 1 0 3).ncells = 0 ∧
    (ctor 1 1 0 3).dx = (ctor 1 1 0 3).lx / (((0 : Int)) : ℚ) := by
  refine ⟨rfl, ?_, by decide, by decide, ?_⟩
  · intro h
    cases h
  · simp [ctor]

/-- C3 (amended): constructing with `numx = 0` or `numy = 0` never raises; the
constructor returns a grid with `lx = lenx`, `ly = leny`, `nx = numx`,
`ny = numy`, `ncells = 0`, and `dx`, `dy` the quotients `lx/nx`, `ly/ny`, one
of them a quotient by zero. -/
theorem construct_never_raises (lenx leny : ℚ) (numx numy : Nat)
    (h : numx = 0 ∨ numy = 0) :
    ∃ g : StaggeredGrid, construct lenx leny numx numy = Except.ok g ∧
      g.lx = lenx ∧ g.ly = leny ∧ g.nx = (numx : Int) ∧ g.ny = (numy : Int) ∧
      g.ncells = 0 ∧ g.dx = g.lx / (g.nx : ℚ) ∧ g.dy = g.ly / (g.ny : ℚ) ∧
      (g.nx = 0 ∨ g.ny = 0) := by
  refine ⟨ctor lenx leny numx numy, rfl, rfl, rfl, rfl, rfl, ?_, rfl, rfl, ?_⟩
  · show (numx : Int) * (numy : Int) = 0
    rcases h with h | h <;> simp [h]
  · show (numx : Int) = 0 ∨ (numy : Int) = 0
    rcases h with h | h
    · exact Or.inl (by exact_mod_cast h)
    · exact Or.inr (by exact_mod_cast h)

/-- Witness for C3 (amended): lengths 1, `numx = 0`, `numy = 3`. -/
theorem construct_never_raises_witness :
    ((0 : Nat) = 0 ∨ (3 : Nat) = 0) ∧
    ∃ g : StaggeredGrid, construct 1 1 0 3 = Except.ok g ∧
      g.lx = 1 ∧ g.ly = 1 ∧ g.nx = ((0 : Nat) : Int) ∧ g.ny = ((3 : Nat) : Int) ∧
      g.ncells = 0 ∧ g.dx = g.lx / (g.nx : ℚ) ∧ g.dy = g.ly / (g.ny : ℚ) ∧
      (g.nx = 0 ∨ g.ny = 0) :=
  ⟨Or.inl rfl, construct_never_raises 1 1 0 3 (Or.inl rfl)⟩

/-- C4: with exact rational coordinates and truncation toward zero, on a grid
constructed with `lenx, leny > 0` and `numx, numy ≥ 1` the code's `cell_id(p)`
is `nx * clamp(floor(p.y/dy), 0, ny-1) + clamp(floor(p.x/dx), 0, nx-1)` for
every point `p`. -/
theorem cell_id_is_clamped_floor (lenx leny : ℚ) (numx numy : Nat) (p : Point)
    (_hlx : 0 < lenx) (_hly : 0 < leny) (hx : 1 ≤ numx) (hy : 1 ≤ numy) :
    (ctor lenx leny numx numy).cell_id p =
      (ctor lenx leny numx numy).nx *
          clampIndex ⌊p.y / (ctor lenx leny numx numy).dy⌋ 0
            ((ctor lenx leny numx numy).ny - 1)
        + clampIndex ⌊p.x / (ctor lenx leny numx numy).dx⌋ 0
            ((ctor lenx leny numx numy).nx - 1) ∧
    (ctor lenx leny numx numy).cell_id p = spec_cell_id (ctor lenx leny numx numy) p := by
  have h := cell_id_eq_spec (ctor lenx leny numx numy) p
    (by show (1 : Int) ≤ (numx : Int); exact_mod_cast hx)
    (by show (1 : Int) ≤ (numy : Int); exact_mod_cast hy)
  exact ⟨h, h⟩

/-- Witness for C4: the 1 x 1, 4 x 3 grid at the point `(-1/10, 1/2)`, where
truncation and floor of `p.x/dx` differ. -/
theorem cell_id_is_clamped_floor_witness :
    ((0 : ℚ) < 1 ∧ (0 : ℚ) < 1 ∧ 1 ≤ 4 ∧ 1 ≤ 3) ∧
    ((ctor 1 1 4 3).cell_id { x := -1 / 10, y := 1 / 2 } =
      (ctor 1 1 4 3).nx *
          clampIndex ⌊({ x := -1 / 10, y := 1 / 2 } : Point).y / (ctor 1 1 4 3).dy⌋ 0
            ((ctor 1 1 4 3).ny - 1)
        + clampIndex ⌊({ x := -1 / 10, y := 1 / 2 } : Point).x / (ctor 1 1 4 3).dx⌋ 0
            ((ctor 1 1 4 3).nx - 1) ∧
    (ctor 1 1 4 3).cell_id { x := -1 / 10, y := 1 / 2 } =
      spec_cell_id (ctor 1 1 4 3) { x := -1 / 10, y := 1 / 2 }) :=
  ⟨⟨by norm_num, by norm_num, by decide, by decide⟩,
    cell_id_is_clamped_floor 1 1 4 3 { x := -1 / 10, y := 1 / 2 } (by norm_num) (by norm_num)
      (by decide) (by decide)⟩

end StaggeredGrid

namespace StaggeredGrid

/-- C6: for a grid with `nx, ny ≥ 1`, `keep_in_domain` of any pair of integer
indices lies in `[0, ncells)`, and so do, for every point, `cell_id` and the
ids of the positions returned by `cell_at_point`, `lower_left_corner_cell`,
`lower_left_hface_cell`, `lower_left_vface_cell` and `lower_left_center_cell`. -/
theorem point_queries_yield_valid_ids (g : StaggeredGrid) (hx : 1 ≤ g.nx) (hy : 1 ≤ g.ny)
    (hn : g.ncells = g.nx * g.ny) :
    (∀ xindex yindex : Int,
      0 ≤ g.keep_in_domain xindex yindex ∧ g.keep_in_domain xindex yindex < g.ncells) ∧
    (∀ p : Point,
      (0 ≤ g.cell_id p ∧ g.cell_id p < g.ncells) ∧
      (0 ≤ (g.cell_at_point p).id ∧ (g.cell_at_point p).id < g.ncells) ∧
      (0 ≤ (g.lower_left_corner_cell p).id ∧ (g.lower_left_corner_cell p).id < g.ncells) ∧
      (0 ≤ (g.lower_left_hface_cell p).id ∧ (g.lower_left_hface_cell p).id < g.ncells) ∧
      (0 ≤ (g.lower_left_vface_cell p).id ∧ (g.lower_left_vface_cell p).id < g.ncells) ∧
      (0 ≤ (g.lower_left_center_cell p).id ∧
        (g.lower_left_center_cell p).id < g.ncells)) := by
  have hk := keep_in_domain_range g hx hy hn
  have hc : ∀ q : Point, 0 ≤ g.cell_id q ∧ g.cell_id q < g.ncells := fun q => hk _ _
  exact ⟨hk, fun p => ⟨hc p, hc p, hc p, hc _, hc _, hc _⟩⟩

/-- Witness for C6: the 4 x 3 grid. -/
theorem point_queries_yield_valid_ids_witness :
    (1 ≤ grid43.nx ∧ 1 ≤ grid43.ny ∧ grid43.ncells = grid43.nx * grid43.ny) ∧
    ((∀ xindex yindex : Int,
      0 ≤ grid43.keep_in_domain xindex yindex ∧
        grid43.keep_in_domain xindex yindex < grid43.ncells) ∧
    (∀ p : Point,
      (0 ≤ grid43.cell_id p ∧ grid43.cell_id p < grid43.ncells) ∧
      (0 ≤ (grid43.cell_at_point p).id ∧ (grid43.cell_at_point p).id < grid43.ncells) ∧
      (0 ≤ (grid43.lower_left_corner_cell p).id ∧
        (grid43.lower_left_corner_cell p).id < grid43.ncells) ∧
      (0 ≤ (grid43.lower_left_hface_cell p).id ∧
        (grid43.lower_left_hface_cell p).id < grid43.ncells) ∧
      (0 ≤ (grid43.lower_left_vface_cell p).id ∧
        (grid43.lower_left_vface_cell p).id < grid43.ncells) ∧
      (0 ≤ (grid43.lower_left_center_cell p).id ∧
        (grid43.lower_left_center_cell p).id < grid43.ncells))) :=
  ⟨by decide, point_queries_yield_valid_ids grid43 (by decide) (by decide) (by decide)⟩

end StaggeredGrid

/-- C11: over exact arithmetic `lagrange_interp_2d` returns each sample at its
own node: `ul` at `(-1,1)`, `u` at `(0,1)`, `ur` at `(1,1)`, `l` at `(-1,0)`,
`c` at `(0,0)`, `r` at `(1,0)`, `dl` at `(-1,-1)`, `d` at `(0,-1)` and `dr` at
`(1,-1)`. -/
theorem lagrange_interp_2d_nodes (ul u ur l c r dl d dr : ℚ) :
    lagrange_interp_2d (-1) 1 ul u ur l c r dl d dr = ul ∧
    lagrange_interp_2d 0 1 ul u ur l c r dl d dr = u ∧
    lagrange_interp_2d 1 1 ul u ur l c r dl d dr = ur ∧
    lagrange_interp_2d (-1) 0 ul u ur l c r dl d dr = l ∧
    lagrange_interp_2d 0 0 ul u ur l c r dl d dr = c ∧
    lagrange_interp_2d 1 0 ul u ur l c r dl d dr = r ∧
    lagrange_interp_2d (-1) (-1) ul u ur l c r dl d dr = dl ∧
    lagrange_interp_2d 0 (-1) ul u ur l c r dl d dr = d ∧
    lagrange_interp_2d 1 (-1) ul u ur l c r dl d dr = dr := by
  refine ⟨?_, ?_, ?_, ?_, ?_, ?_, ?_, ?_, ?_⟩ <;>
    simp only [lagrange_interp_2d] <;> ring

/-- C12: over exact arithmetic `linear_interp_2d` returns `dl` at `(0,0)`, `dr`
at `(1,0)`, `ul` at `(0,1)` and `ur` at `(1,1)`. -/
theorem linear_interp_2d_corners (ul ur dl dr : ℚ) :
    linear_interp_2d 0 0 ul ur dl dr = dl ∧
    linear_interp_2d 1 0 ul ur dl dr = dr ∧
    linear_interp_2d 0 1 ul ur dl dr = ul ∧
    linear_interp_2d 1 1 ul ur dl dr = ur := by
  refine ⟨?_, ?_, ?_, ?_⟩ <;> simp only [linear_interp_2d] <;> ring

/-- C13: over exact arithmetic the expanded polynomial computed by
`lagrange_interp_2d` equals, for all `x`, `y` and all nine samples, the
factored closed form kept in the source comment. -/
theorem lagrange_interp_2d_eq_factored (x y ul u ur l c r dl d dr : ℚ) :
    lagrange_interp_2d x y ul u ur l c r dl d dr =
      lagrange_interp_2d_factored x y ul u ur l c r dl d dr := by
  simp only [lagrange_interp_2d, lagrange_interp_2d_factored]
  ring

/-- C19: `lagrange_interp_2d` is exact on biquadratic fields: fed the nine
node values of `p(x,y) = sum a_ij x^i y^j` (`i, j` in `{0,1,2}`) it returns
`p(x,y)` for every `x`, `y`; in particular a constant field is reproduced. -/
theorem lagrange_interp_2d_exact_on_biquadratics (a : Fin 3 → Fin 3 → ℚ) (x y k : ℚ) :
    lagrange_interp_2d x y
        (biquadratic a (-1) 1) (biquadratic a 0 1) (biquadratic a 1 1)
        (biquadratic a (-1) 0) (biquadratic a 0 0) (biquadratic a 1 0)
        (biquadratic a (-1) (-1)) (biquadratic a 0 (-1)) (biquadratic a 1 (-1))
      = biquadratic a x y ∧
    lagrange_interp_2d x y k k k k k k k k k = k ∧
    lagrange_interp_2d x y 1 1 1 1 1 1 1 1 1 = 1 := by
  refine ⟨?_, ?_, ?_⟩ <;> simp only [lagrange_interp_2d, biquadratic] <;> ring

/-- C20: on the unit square `linear_interp_2d` is a convex combination: for
`x, y` in `[0,1]` the weights `(1-x)y`, `xy`, `(1-x)(1-y)`, `x(1-y)` of
`ul, ur, dl, dr` are non-negative and sum to 1, and the result lies between
the least and the greatest of the four samples. -/
theorem linear_interp_2d_convex (x y ul ur dl dr : ℚ)
    (hx0 : 0 ≤ x) (hx1 : x ≤ 1) (hy0 : 0 ≤ y) (hy1 : y ≤ 1) :
    (0 ≤ (1 - x) * y ∧ 0 ≤ x * y ∧ 0 ≤ (1 - x) * (1 - y) ∧ 0 ≤ x * (1 - y)) ∧
    (1 - x) * y + x * y + (1 - x) * (1 - y) + x * (1 - y) = 1 ∧
    linear_interp_2d x y ul ur dl dr =
      (1 - x) * y * ul + x * y * ur + (1 - x) * (1 - y) * dl + x * (1 - y) * dr ∧
    min (min ul ur) (min dl dr) ≤ linear_interp_2d x y ul ur dl dr ∧
    linear_interp_2d x y ul ur dl dr ≤ max (max ul ur) (max dl dr) := by
  have w1 : 0 ≤ (1 - x) * y := mul_nonneg (by linarith) hy0
  have w2 : 0 ≤ x * y := mul_nonneg hx0 hy0
  have w3 : 0 ≤ (1 - x) * (1 - y) := mul_nonneg (by linarith) (by linarith)
  have w4 : 0 ≤ x * (1 - y) := mul_nonneg hx0 (by linarith)
  have hs : (1 - x) * y + x * y + (1 - x) * (1 - y) + x * (1 - y) = 1 := by ring
  have he : linear_interp_2d x y ul ur dl dr =
      (1 - x) * y * ul + x * y * ur + (1 - x) * (1 - y) * dl + x * (1 - y) * dr := by
    simp only [linear_interp_2d]; ring
  refine ⟨⟨w1, w2, w3, w4⟩, hs, he, ?_, ?_⟩
  · set m := min (min ul ur) (min dl dr) with hm
    have m1 : m ≤ ul := le_trans (min_le_left _ _) (min_le_left _ _)
    have m2 : m ≤ ur := le_trans (min_le_left _ _) (min_le_right _ _)
    have m3 : m ≤ dl := le_trans (min_le_right _ _) (min_le_left _ _)
    have m4 : m ≤ dr := le_trans (min_le_right _ _) (min_le_right _ _)
    have e : m = (1 - x) * y * m + x * y * m + (1 - x) * (1 - y) * m + x * (1 - y) * m := by
      ring
    rw [he, e]
    have := mul_le_mul_of_nonneg_left m1 w1
    have := mul_le_mul_of_nonneg_left m2 w2
    have := mul_le_mul_of_nonneg_left m3 w3
    have := mul_le_mul_of_nonneg_left m4 w4
    linarith
  · set M := max (max ul ur) (max dl dr) with hM
    have m1 : ul ≤ M := le_trans (le_max_left _ _) (le_max_left _ _)
    have m2 : ur ≤ M := le_trans (le_max_right _ _) (le_max_left _ _)
    have m3 : dl ≤ M := le_trans (le_max_left _ _) (le_max_right _ _)
    have m4 : dr ≤ M := le_trans (le_max_right _ _) (le_max_right _ _)
    have e : M = (1 - x) * y * M + x * y * M + (1 - x) * (1 - y) * M + x * (1 - y) * M := by
      ring
    rw [he, e]
    have := mul_le_mul_of_nonneg_left m1 w1
    have := mul_le_mul_of_nonneg_left m2 w2
    have := mul_le_mul_of_nonneg_left m3 w3
    have := mul_le_mul_of_nonneg_left m4 w4
    linarith

/-- Witness for C20: the point `(1/4, 1/2)` with samples `1, 2, 3, 4`. -/
theorem linear_interp_2d_convex_witness :
    ((0 : ℚ) ≤ 1 / 4 ∧ (1 / 4 : ℚ) ≤ 1 ∧ (0 : ℚ) ≤ 1 / 2 ∧ (1 / 2 : ℚ) ≤ 1) ∧
    ((0 ≤ (1 - (1 / 4 : ℚ)) * (1 / 2) ∧ 0 ≤ (1 / 4 : ℚ) * (1 / 2) ∧
        0 ≤ (1 - (1 / 4 : ℚ)) * (1 - 1 / 2) ∧ 0 ≤ (1 / 4 : ℚ) * (1 - 1 / 2)) ∧
    (1 - (1 / 4 : ℚ)) * (1 / 2) + (1 / 4) * (1 / 2) + (1 - 1 / 4) * (1 - 1 / 2)
      + (1 / 4) * (1 - 1 / 2) = 1 ∧
    linear_interp_2d (1 / 4) (1 / 2) 1 2 3 4 =
      (1 - (1 / 4 : ℚ)) * (1 / 2) * 1 + (1 / 4) * (1 / 2) * 2
        + (1 - 1 / 4) * (1 - 1 / 2) * 3 + (1 / 4) * (1 - 1 / 2) * 4 ∧
    min (min (1 : ℚ) 2) (min 3 4) ≤ linear_interp_2d (1 / 4) (1 / 2) 1 2 3 4 ∧
    linear_interp_2d (1 / 4) (1 / 2) 1 2 3 4 ≤ max (max (1 : ℚ) 2) (max 3 4)) :=
  ⟨⟨by norm_num, by norm_num, by norm_num, by norm_num⟩,
    linear_interp_2d_convex (1 / 4) (1 / 2) 1 2 3 4 (by norm_num) (by norm_num)
      (by norm_num) (by norm_num)⟩

namespace StaggeredGrid

/-- The indices the code computes for the id `nx * yi + xi` of column `xi` and
row `yi`. -/
theorem Cell.index_of_row_col (nx xi yi : Int) (hx : 1 ≤ nx) (hx0 : 0 ≤ xi) (hx1 : xi < nx)
    (hy0 : 0 ≤ yi) :
    Int.tmod (nx * yi + xi) nx = xi ∧ Int.tdiv (nx * yi + xi) nx = yi := by
  have hp : 0 ≤ nx * yi := Int.mul_nonneg (by omega) hy0
  have e : nx * yi + xi = xi + nx * yi := Int.add_comm _ _
  constructor
  · rw [Int.tmod_eq_emod (by omega) (by omega), e, Int.add_mul_emod_self_left]
    exact Int.emod_eq_of_lt hx0 hx1
  · rw [Int.tdiv_eq_ediv (by omega) (by omega), e,
      Int.add_mul_ediv_left _ _ (by omega : nx ≠ 0), Int.ediv_eq_zero_of_lt hx0 hx1]
    omega

/-- C14: for every grid and every cell id, `corner()` is
`(xindex*dx, yindex*dy)`, `center()` is `corner()` moved by `(dx/2, dy/2)`,
`hface()` is `(center().x, corner().y)` and `vface()` is
`(corner().x, center().y)`. -/
theorem Cell.storage_points (g : StaggeredGrid) (id : Int) :
    (Cell.ctor id g).corner =
      { x := ((Cell.ctor id g).xindex : ℚ) * g.dx, y := ((Cell.ctor id g).yindex : ℚ) * g.dy } ∧
    (Cell.ctor id g).center.x = (Cell.ctor id g).corner.x + g.dx / 2 ∧
    (Cell.ctor id g).center.y = (Cell.ctor id g).corner.y + g.dy / 2 ∧
    (Cell.ctor id g).hface =
      { x := (Cell.ctor id g).center.x, y := (Cell.ctor id g).corner.y } ∧
    (Cell.ctor id g).vface =
      { x := (Cell.ctor id g).corner.x, y := (Cell.ctor id g).center.y } :=
  ⟨rfl, rfl, rfl, rfl, rfl⟩

/-- C16: for a grid with `nx, ny ≥ 1` and a valid id, `xindex()` is `id mod nx`
and `yindex()` is `id div nx`, with `0 ≤ xindex() < nx`, `0 ≤ yindex() < ny` and
`id = yindex()*nx + xindex()`; on the 4 x 3 grid id 0 has indices `(0,0)` and
id 5 has indices `(1,1)`. -/
theorem Cell.index_decomposition (g : StaggeredGrid) (id : Int) (hx : 1 ≤ g.nx)
    (_hy : 1 ≤ g.ny) (hn : g.ncells = g.nx * g.ny) (h0 : 0 ≤ id) (h1 : id < g.ncells) :
    ((Cell.ctor id g).xindex = id % g.nx ∧ (Cell.ctor id g).yindex = id / g.nx ∧
     0 ≤ (Cell.ctor id g).xindex ∧ (Cell.ctor id g).xindex < g.nx ∧
     0 ≤ (Cell.ctor id g).yindex ∧ (Cell.ctor id g).yindex < g.ny ∧
     id = (Cell.ctor id g).yindex * g.nx + (Cell.ctor id g).xindex) ∧
    ((Cell.ctor 0 grid43).xindex = 0 ∧ (Cell.ctor 0 grid43).yindex = 0 ∧
     (Cell.ctor 5 grid43).xindex = 1 ∧ (Cell.ctor 5 grid43).yindex = 1) := by
  obtain ⟨x, y, hid, hx0, hx1, hy0, hy1, hm, hd, htm, htd, -⟩ :=
    Cell.tests g id hx hn h0 h1
  refine ⟨?_, by decide⟩
  simp only [Cell.xindex, Cell.yindex, Cell.ctor, htm, htd, hm, hd]
  refine ⟨trivial, trivial, hx0, hx1, hy0, hy1, ?_⟩
  rw [Int.mul_comm]
  exact hid

/-- Witness for C16: the 4 x 3 grid at id 5. -/
theorem Cell.index_decomposition_witness :
    (1 ≤ grid43.nx ∧ 1 ≤ grid43.ny ∧ grid43.ncells = grid43.nx * grid43.ny ∧
      (0 : Int) ≤ 5 ∧ (5 : Int) < grid43.ncells) ∧
    (((Cell.ctor 5 grid43).xindex = 5 % grid43.nx ∧
     (Cell.ctor 5 grid43).yindex = 5 / grid43.nx ∧
     0 ≤ (Cell.ctor 5 grid43).xindex ∧ (Cell.ctor 5 grid43).xindex < grid43.nx ∧
     0 ≤ (Cell.ctor 5 grid43).yindex ∧ (Cell.ctor 5 grid43).yindex < grid43.ny ∧
     5 = (Cell.ctor 5 grid43).yindex * grid43.nx + (Cell.ctor 5 grid43).xindex) ∧
    ((Cell.ctor 0 grid43).xindex = 0 ∧ (Cell.ctor 0 grid43).yindex = 0 ∧
     (Cell.ctor 5 grid43).xindex = 1 ∧ (Cell.ctor 5 grid43).yindex = 1)) :=
  ⟨by decide, Cell.index_decomposition grid43 5 (by decide) (by decide) (by decide)
    (by decide) (by decide)⟩

/-- C17: for a grid with `nx, ny ≥ 1` and a valid id, `right` of the cell
`left(id)` is `id`, `left` of the cell `right(id)` is `id`, `down` of the cell
`up(id)` is `id` and `up` of the cell `down(id)` is `id`; for `nx = 1` the
horizontal and for `ny = 1` the vertical neighbours are `id` itself. -/
theorem Cell.axis_neighbours_inverse (g : StaggeredGrid) (id : Int) (hx : 1 ≤ g.nx)
    (_hy : 1 ≤ g.ny) (hn : g.ncells = g.nx * g.ny) (h0 : 0 ≤ id) (h1 : id < g.ncells) :
    (Cell.ctor (Cell.ctor id g).left g).right = id ∧
    (Cell.ctor (Cell.ctor id g).right g).left = id ∧
    (Cell.ctor (Cell.ctor id g).up g).down = id ∧
    (Cell.ctor (Cell.ctor id g).down g).up = id ∧
    (g.nx = 1 → (Cell.ctor id g).left = id ∧ (Cell.ctor id g).right = id) ∧
    (g.ny = 1 → (Cell.ctor id g).up = id ∧ (Cell.ctor id g).down = id) := by
  obtain ⟨x, y, hid, hx0, hx1, hy0, hy1, -, -, htm, -, hr, ht, hb⟩ :=
    Cell.tests g id hx hn h0 h1
  obtain ⟨b0, b1, b2, b3, b4, b5⟩ := Cell.row_bounds g.nx g.ny y hx hy0 hy1
  obtain ⟨w1, w2⟩ := Cell.wrap_products g.nx g.ny
  have hxm : ∀ k : Int, 0 ≤ k → k < g.nx → Int.tmod (g.nx * y + k) g.nx = k := fun k hk0 hk1 =>
    (Cell.index_of_row_col g.nx k y hx hk0 hk1 hy0).1
  have hx2 : Int.tmod (g.nx * (y + 1)) g.nx = 0 := by
    have := (Cell.index_of_row_col g.nx 0 (y + 1) hx (le_refl 0) (by omega) (by omega)).1
    rw [Int.add_zero] at this
    exact this
  refine ⟨?_, ?_, ?_, ?_, ?_, ?_⟩
  · -- right of left
    simp only [Cell.left, Cell.right, Cell.ctor, htm]
    by_cases hxz : x = 0
    · have e : id + g.nx - 1 + 1 = g.nx * (y + 1) := by rw [hid, hxz, Int.mul_add]; omega
      simp only [hxz, if_true, e, hx2]
      omega
    · have e : id - 1 + 1 = id := by omega
      simp only [hxz, if_false, e, htm]
  · -- left of right
    simp only [Cell.left, Cell.right, Cell.ctor, hr]
    by_cases hxl : x = g.nx - 1
    · have e : id - g.nx + 1 = g.nx * y + 0 := by rw [hid, hxl]; omega
      simp only [hxl, if_true, e, hxm 0 (le_refl 0) (by omega)]
      omega
    · have e : id + 1 = g.nx * y + (x + 1) := by rw [hid]; omega
      have e2 := hxm (x + 1) (by omega) (by omega)
      rw [← e] at e2
      have hne : ¬ (x + 1 = 0) := by omega
      simp only [hxl, if_false, e2, hne]
      omega
  · simp only [Cell.up, Cell.down, Cell.ctor, ht, w1]
    clear w1 w2 hr ht hb htm hxm hx2
    split_ifs <;> omega
  · simp only [Cell.up, Cell.down, Cell.ctor, hb, w1]
    rw [hn]
    clear w1 w2 hr ht hb htm hxm hx2
    split_ifs <;> omega
  · intro h1x
    simp only [Cell.left, Cell.right, Cell.ctor, htm, hr]
    constructor <;> split_ifs <;> omega
  · intro h1y
    simp only [Cell.up, Cell.down, Cell.ctor, ht, hb, w1]
    clear w1 w2 hr ht hb htm hxm hx2
    constructor <;> split_ifs <;> omega

/-- Witness for C17: the 4 x 3 grid at id 0, a corner cell where both wraps apply. -/
theorem Cell.axis_neighbours_inverse_witness :
    (1 ≤ grid43.nx ∧ 1 ≤ grid43.ny ∧ grid43.ncells = grid43.nx * grid43.ny ∧
      (0 : Int) ≤ 0 ∧ (0 : Int) < grid43.ncells) ∧
    ((Cell.ctor (Cell.ctor 0 grid43).left grid43).right = 0 ∧
    (Cell.ctor (Cell.ctor 0 grid43).right grid43).left = 0 ∧
    (Cell.ctor (Cell.ctor 0 grid43).up grid43).down = 0 ∧
    (Cell.ctor (Cell.ctor 0 grid43).down grid43).up = 0 ∧
    (grid43.nx = 1 → (Cell.ctor 0 grid43).left = 0 ∧ (Cell.ctor 0 grid43).right = 0) ∧
    (grid43.ny = 1 → (Cell.ctor 0 grid43).up = 0 ∧ (Cell.ctor 0 grid43).down = 0)) :=
  ⟨by decide, Cell.axis_neighbours_inverse grid43 0 (by decide) (by decide) (by decide)
    (by decide) (by decide)⟩

end StaggeredGrid

section CellQuotient

/-- Truncation of a quotient `(k*d + t)/d` with `0 ≤ k` and `0 ≤ t < d`. -/
theorem trunc_cell_quotient (d t : ℚ) (k : Int) (hd : 0 < d) (hk : 0 ≤ k) (ht0 : 0 ≤ t)
    (ht1 : t < d) : truncToInt (((k : ℚ) * d + t) / d) = k := by
  have hkq : (0 : ℚ) ≤ (k : ℚ) := by exact_mod_cast hk
  have e : ((k : ℚ) * d + t) / d = (k : ℚ) + t / d := by field_simp
  have h0 : 0 ≤ t / d := div_nonneg ht0 hd.le
  have h1 : t / d < 1 := (div_lt_one hd).mpr ht1
  have hq : 0 ≤ (k : ℚ) + t / d := add_nonneg hkq h0
  rw [e]
  unfold truncToInt
  rw [if_pos hq, Int.floor_eq_iff]
  constructor <;> linarith

/-- For `0 ≤ v < n*d` the truncated quotient `v/d` is a column in `[0, n)` and
`v` lies in the cell that starts at that column. -/
theorem trunc_quotient_bracket (v d : ℚ) (n : Int) (hd : 0 < d) (hv0 : 0 ≤ v)
    (hv1 : v < (n : ℚ) * d) :
    0 ≤ truncToInt (v / d) ∧ truncToInt (v / d) < n ∧
      (truncToInt (v / d) : ℚ) * d ≤ v ∧ v < (truncToInt (v / d) : ℚ) * d + d := by
  have hq : 0 ≤ v / d := div_nonneg hv0 hd.le
  have ht : truncToInt (v / d) = ⌊v / d⌋ := by unfold truncToInt; rw [if_pos hq]
  have hlt : v / d < (n : ℚ) := (div_lt_iff₀ hd).mpr hv1
  have f1 : (⌊v / d⌋ : ℚ) ≤ v / d := Int.floor_le _
  have f2 : v / d < (⌊v / d⌋ : ℚ) + 1 := Int.lt_floor_add_one _
  rw [ht]
  refine ⟨Int.floor_nonneg.mpr hq, Int.floor_lt.mpr hlt, (le_div_iff₀ hd).mp f1, ?_⟩
  have := (div_lt_iff₀ hd).mp f2
  linarith

end CellQuotient

namespace StaggeredGrid

/-- Inside the index range `keep_in_domain` is the row-major id. -/
theorem keep_in_domain_inside (g : StaggeredGrid) (xi yi : Int) (hx0 : 0 ≤ xi)
    (hx1 : xi < g.nx) (hy0 : 0 ≤ yi) (hy1 : yi < g.ny) :
    g.keep_in_domain xi yi = g.nx * yi + xi := by
  unfold keep_in_domain
  rw [if_neg (by omega), if_neg (by omega), if_neg (by omega), if_neg (by omega)]

/-- Cell sizes of a grid constructed with positive lengths and counts `≥ 1`. -/
theorem ctor_cell_size (lenx leny : ℚ) (numx numy : Nat)
    (hlx : 0 < lenx) (hly : 0 < leny) (hx : 1 ≤ numx) (hy : 1 ≤ numy) :
    0 < (ctor lenx leny numx numy).dx ∧ 0 < (ctor lenx leny numx numy).dy ∧
    (((ctor lenx leny numx numy).nx : Int) : ℚ) * (ctor lenx leny numx numy).dx = lenx ∧
    (((ctor lenx leny numx numy).ny : Int) : ℚ) * (ctor lenx leny numx numy).dy = leny := by
  have hxq : (0 : ℚ) < ((numx : Int) : ℚ) := by exact_mod_cast hx
  have hyq : (0 : ℚ) < ((numy : Int) : ℚ) := by exact_mod_cast hy
  refine ⟨div_pos hlx hxq, div_pos hly hyq, ?_, ?_⟩
  · show ((numx : Int) : ℚ) * (lenx / ((numx : Int) : ℚ)) = lenx
    field_simp
  · show ((numy : Int) : ℚ) * (leny / ((numy : Int) : ℚ)) = leny
    field_simp

/-- The cell of `cell_at_point(q)` for a point `q` of `[0,lx) x [0,ly)`: its
corner is at or below-left of `q`, less than one cell away on each axis. -/
theorem cell_at_point_bracket (lenx leny : ℚ) (numx numy : Nat) (q : Point)
    (hlx : 0 < lenx) (hly : 0 < leny) (hx : 1 ≤ numx) (hy : 1 ≤ numy)
    (hq0 : 0 ≤ q.x) (hq1 : q.x < lenx) (hq2 : 0 ≤ q.y) (hq3 : q.y < leny) :
    (((ctor lenx leny numx numy).cell_at_point q).operator_deref.corner.x ≤ q.x ∧
      q.x < ((ctor lenx leny numx numy).cell_at_point q).operator_deref.corner.x
        + (ctor lenx leny numx numy).dx) ∧
    (((ctor lenx leny numx numy).cell_at_point q).operator_deref.corner.y ≤ q.y ∧
      q.y < ((ctor lenx leny numx numy).cell_at_point q).operator_deref.corner.y
        + (ctor lenx leny numx numy).dy) := by
  obtain ⟨hdx, hdy, ex, ey⟩ := ctor_cell_size lenx leny numx numy hlx hly hx hy
  generalize hg : ctor lenx leny numx numy = g at *
  have hnx : (1 : Int) ≤ g.nx := by rw [← hg]; show (1 : Int) ≤ (numx : Int); exact_mod_cast hx
  obtain ⟨a0, a1, a2, a3⟩ := trunc_quotient_bracket q.x g.dx g.nx hdx hq0 (by rw [ex]; exact hq1)
  obtain ⟨c0, c1, c2, c3⟩ := trunc_quotient_bracket q.y g.dy g.ny hdy hq2 (by rw [ey]; exact hq3)
  obtain ⟨i1, i2⟩ := Cell.index_of_row_col g.nx _ _ hnx a0 a1 c0
  simp only [cell_at_point, cell_id, iterator.ctor, iterator.operator_deref, Cell.ctor,
    Cell.corner, Cell.xindex, Cell.yindex,
    keep_in_domain_inside g _ _ a0 a1 c0 c1, i1, i2]
  exact ⟨⟨a2, a3⟩, ⟨c2, c3⟩⟩

end StaggeredGrid

namespace StaggeredGrid

/-- C18: on a grid constructed with `lenx, leny > 0` and `numx, numy ≥ 1`, for
every valid id, `cell_id(center())` and `cell_id(corner())` of the cell with
that id are the id. -/
theorem cell_id_round_trip (lenx leny : ℚ) (numx numy : Nat) (id : Int)
    (hlx : 0 < lenx) (hly : 0 < leny) (hx : 1 ≤ numx) (hy : 1 ≤ numy)
    (h0 : 0 ≤ id) (h1 : id < (ctor lenx leny numx numy).ncells) :
    (ctor lenx leny numx numy).cell_id (Cell.ctor id (ctor lenx leny numx numy)).center = id ∧
    (ctor lenx leny numx numy).cell_id (Cell.ctor id (ctor lenx leny numx numy)).corner = id := by
  obtain ⟨hdx, hdy, -, -⟩ := ctor_cell_size lenx leny numx numy hlx hly hx hy
  have hn : (ctor lenx leny numx numy).ncells =
      (ctor lenx leny numx numy).nx * (ctor lenx leny numx numy).ny := rfl
  have hnx : (1 : Int) ≤ (ctor lenx leny numx numy).nx := by
    show (1 : Int) ≤ (numx : Int)
    exact_mod_cast hx
  generalize ctor lenx leny numx numy = g at *
  obtain ⟨x, y, hid, hx0, hx1, hy0, hy1, -, -, htm, htd, -⟩ := Cell.tests g id hnx hn h0 h1
  have tx := trunc_cell_quotient g.dx (g.dx / 2) x hdx hx0 (by linarith) (by linarith)
  have ty := trunc_cell_quotient g.dy (g.dy / 2) y hdy hy0 (by linarith) (by linarith)
  have sx := trunc_cell_quotient g.dx 0 x hdx hx0 (le_refl 0) hdx
  have sy := trunc_cell_quotient g.dy 0 y hdy hy0 (le_refl 0) hdy
  rw [add_zero] at sx sy
  simp only [cell_id, Cell.center, Cell.corner, Cell.xindex, Cell.yindex, Cell.ctor, htm, htd,
    tx, ty, sx, sy, keep_in_domain_inside g x y hx0 hx1 hy0 hy1]
  exact ⟨hid.symm, hid.symm⟩

/-- Witness for C18: the 1 x 1, 4 x 3 grid at id 5. -/
theorem cell_id_round_trip_witness :
    ((0 : ℚ) < 1 ∧ (0 : ℚ) < 1 ∧ 1 ≤ 4 ∧ 1 ≤ 3 ∧ (0 : Int) ≤ 5 ∧
      (5 : Int) < (ctor 1 1 4 3).ncells) ∧
    ((ctor 1 1 4 3).cell_id (Cell.ctor 5 (ctor 1 1 4 3)).center = 5 ∧
     (ctor 1 1 4 3).cell_id (Cell.ctor 5 (ctor 1 1 4 3)).corner = 5) :=
  ⟨⟨by norm_num, by norm_num, by decide, by decide, by decide, by decide⟩,
    cell_id_round_trip 1 1 4 3 5 (by norm_num) (by norm_num) (by decide) (by decide)
      (by decide) (by decide)⟩

/-- C15: on a grid constructed with `lenx, leny > 0` and `numx, numy ≥ 1`, each
locator returns a cell whose storage point of the matching kind is at or
below-left of `p` and less than one cell away on each axis, whenever `p` minus
the offset of that kind lies in `[0,lx) x [0,ly)`: `lower_left_corner_cell` with
`corner()` and offset `(0,0)`, `lower_left_hface_cell` with `hface()` and
`(dx/2,0)`, `lower_left_vface_cell` with `vface()` and `(0,dy/2)`,
`lower_left_center_cell` with `center()` and `(dx/2,dy/2)`. -/
theorem lower_left_cells_bracket (lenx leny : ℚ) (numx numy : Nat) (p : Point)
    (hlx : 0 < lenx) (hly : 0 < leny) (hx : 1 ≤ numx) (hy : 1 ≤ numy) :
    (0 ≤ p.x → p.x < lenx → 0 ≤ p.y → p.y < leny →
      (((ctor lenx leny numx numy).lower_left_corner_cell p).operator_deref.corner.x ≤ p.x ∧
        p.x < ((ctor lenx leny numx numy).lower_left_corner_cell p).operator_deref.corner.x
          + (ctor lenx leny numx numy).dx) ∧
      (((ctor lenx leny numx numy).lower_left_corner_cell p).operator_deref.corner.y ≤ p.y ∧
        p.y < ((ctor lenx leny numx numy).lower_left_corner_cell p).operator_deref.corner.y
          + (ctor lenx leny numx numy).dy)) ∧
    (0 ≤ p.x - (ctor lenx leny numx numy).dx / 2 →
      p.x - (ctor lenx leny numx numy).dx / 2 < lenx → 0 ≤ p.y → p.y < leny →
      (((ctor lenx leny numx numy).lower_left_hface_cell p).operator_deref.hface.x ≤ p.x ∧
        p.x < ((ctor lenx leny numx numy).lower_left_hface_cell p).operator_deref.hface.x
          + (ctor lenx leny numx numy).dx) ∧
      (((ctor lenx leny numx numy).lower_left_hface_cell p).operator_deref.hface.y ≤ p.y ∧
        p.y < ((ctor lenx leny numx numy).lower_left_hface_cell p).operator_deref.hface.y
          + (ctor lenx leny numx numy).dy)) ∧
    (0 ≤ p.x → p.x < lenx → 0 ≤ p.y - (ctor lenx leny numx numy).dy / 2 →
      p.y - (ctor lenx leny numx numy).dy / 2 < leny →
      (((ctor lenx leny numx numy).lower_left_vface_cell p).operator_deref.vface.x ≤ p.x ∧
        p.x < ((ctor lenx leny numx numy).lower_left_vface_cell p).operator_deref.vface.x
          + (ctor lenx leny numx numy).dx) ∧
      (((ctor lenx leny numx numy).lower_left_vface_cell p).operator_deref.vface.y ≤ p.y ∧
        p.y < ((ctor lenx leny numx numy).lower_left_vface_cell p).operator_deref.vface.y
          + (ctor lenx leny numx numy).dy)) ∧
    (0 ≤ p.x - (ctor lenx leny numx numy).dx / 2 →
      p.x - (ctor lenx leny numx numy).dx / 2 < lenx →
      0 ≤ p.y - (ctor lenx leny numx numy).dy / 2 →
      p.y - (ctor lenx leny numx numy).dy / 2 < leny →
      (((ctor lenx leny numx numy).lower_left_center_cell p).operator_deref.center.x ≤ p.x ∧
        p.x < ((ctor lenx leny numx numy).lower_left_center_cell p).operator_deref.center.x
          + (ctor lenx leny numx numy).dx) ∧
      (((ctor lenx leny numx numy).lower_left_center_cell p).operator_deref.center.y ≤ p.y ∧
        p.y < ((ctor lenx leny numx numy).lower_left_center_cell p).operator_deref.center.y
          + (ctor lenx leny numx numy).dy)) := by
  have key := fun q : Point => cell_at_point_bracket lenx leny numx numy q hlx hly hx hy
  generalize ctor lenx leny numx numy = g at *
  have e2 : g.dx * (1 / 2) = g.dx / 2 := by ring
  have e3 : g.dy * (1 / 2) = g.dy / 2 := by ring
  refine ⟨?_, ?_, ?_, ?_⟩
  · intro a b c d
    exact key p a b c d
  · intro a b c d
    have h := key { x := p.x - g.dx / 2, y := p.y } a b c d
    simp only [lower_left_hface_cell, e2]
    simp only [cell_at_point, iterator.ctor, iterator.operator_deref, Cell.ctor, Cell.corner,
      Cell.hface, Cell.xindex, Cell.yindex] at h ⊢
    obtain ⟨⟨h1, h2⟩, h3, h4⟩ := h
    refine ⟨⟨?_, ?_⟩, h3, h4⟩ <;> linarith
  · intro a b c d
    have h := key { x := p.x, y := p.y - g.dy / 2 } a b c d
    simp only [lower_left_vface_cell, e3]
    simp only [cell_at_point, iterator.ctor, iterator.operator_deref, Cell.ctor, Cell.corner,
      Cell.vface, Cell.xindex, Cell.yindex] at h ⊢
    obtain ⟨⟨h1, h2⟩, h3, h4⟩ := h
    refine ⟨⟨h1, h2⟩, ?_, ?_⟩ <;> linarith
  · intro a b c d
    have h := key { x := p.x - g.dx / 2, y := p.y - g.dy / 2 } a b c d
    simp only [lower_left_center_cell, e3]
    simp only [cell_at_point, iterator.ctor, iterator.operator_deref, Cell.ctor, Cell.corner,
      Cell.center, Cell.xindex, Cell.yindex] at h ⊢
    obtain ⟨⟨h1, h2⟩, h3, h4⟩ := h
    refine ⟨⟨?_, ?_⟩, ?_, ?_⟩ <;> linarith

end StaggeredGrid

namespace StaggeredGrid

/-- Witness for C15: the 1 x 1, 4 x 3 grid at the point `(3/10, 1/2)`, for which
all four shifted points lie in the domain. -/
theorem lower_left_cells_bracket_witness :
    ((0 : ℚ) < 1 ∧ (0 : ℚ) < 1 ∧ 1 ≤ 4 ∧ 1 ≤ 3) ∧
    (((((ctor 1 1 4 3).lower_left_corner_cell { x := 3 / 10, y := 1 / 2 }).operator_deref.corner.x ≤ 3 / 10 ∧
        3 / 10 < ((ctor 1 1 4 3).lower_left_corner_cell { x := 3 / 10, y := 1 / 2 }).operator_deref.corner.x
          + (ctor 1 1 4 3).dx) ∧
      (((ctor 1 1 4 3).lower_left_corner_cell { x := 3 / 10, y := 1 / 2 }).operator_deref.corner.y ≤ 1 / 2 ∧
        1 / 2 < ((ctor 1 1 4 3).lower_left_corner_cell { x := 3 / 10, y := 1 / 2 }).operator_deref.corner.y
          + (ctor 1 1 4 3).dy))) ∧
    (((((ctor 1 1 4 3).lower_left_hface_cell { x := 3 / 10, y := 1 / 2 }).operator_deref.hface.x ≤ 3 / 10 ∧
        3 / 10 < ((ctor 1 1 4 3).lower_left_hface_cell { x := 3 / 10, y := 1 / 2 }).operator_deref.hface.x
          + (ctor 1 1 4 3).dx) ∧
      (((ctor 1 1 4 3).lower_left_hface_cell { x := 3 / 10, y := 1 / 2 }).operator_deref.hface.y ≤ 1 / 2 ∧
        1 / 2 < ((ctor 1 1 4 3).lower_left_hface_cell { x := 3 / 10, y := 1 / 2 }).operator_deref.hface.y
          + (ctor 1 1 4 3).dy))) ∧
    (((((ctor 1 1 4 3).lower_left_vface_cell { x := 3 / 10, y := 1 / 2 }).operator_deref.vface.x ≤ 3 / 10 ∧
        3 / 10 < ((ctor 1 1 4 3).lower_left_vface_cell { x := 3 / 10, y := 1 / 2 }).operator_deref.vface.x
          + (ctor 1 1 4 3).dx) ∧
      (((ctor 1 1 4 3).lower_left_vface_cell { x := 3 / 10, y := 1 / 2 }).operator_deref.vface.y ≤ 1 / 2 ∧
        1 / 2 < ((ctor 1 1 4 3).lower_left_vface_cell { x := 3 / 10, y := 1 / 2 }).operator_deref.vface.y
          + (ctor 1 1 4 3).dy))) ∧
    (((((ctor 1 1 4 3).lower_left_center_cell { x := 3 / 10, y := 1 / 2 }).operator_deref.center.x ≤ 3 / 10 ∧
        3 / 10 < ((ctor 1 1 4 3).lower_left_center_cell { x := 3 / 10, y := 1 / 2 }).operator_deref.center.x
          + (ctor 1 1 4 3).dx) ∧
      (((ctor 1 1 4 3).lower_left_center_cell { x := 3 / 10, y := 1 / 2 }).operator_deref.center.y ≤ 1 / 2 ∧
        1 / 2 < ((ctor 1 1 4 3).lower_left_center_cell { x := 3 / 10, y := 1 / 2 }).operator_deref.center.y
          + (ctor 1 1 4 3).dy))) :=
  ⟨⟨by norm_num, by norm_num, by decide, by decide⟩,
    (lower_left_cells_bracket 1 1 4 3 { x := 3 / 10, y := 1 / 2 } (by norm_num) (by norm_num) (by decide)
      (by decide)).1 (by norm_num) (by norm_num) (by norm_num) (by norm_num),
    (lower_left_cells_bracket 1 1 4 3 { x := 3 / 10, y := 1 / 2 } (by norm_num) (by norm_num) (by decide)
      (by decide)).2.1 (by norm_num [ctor]) (by norm_num [ctor]) (by norm_num) (by norm_num),
    (lower_left_cells_bracket 1 1 4 3 { x := 3 / 10, y := 1 / 2 } (by norm_num) (by norm_num) (by decide)
      (by decide)).2.2.1 (by norm_num) (by norm_num) (by norm_num [ctor]) (by norm_num [ctor]),
    (lower_left_cells_bracket 1 1 4 3 { x := 3 / 10, y := 1 / 2 } (by norm_num) (by norm_num) (by decide)
      (by decide)).2.2.2 (by norm_num [ctor]) (by norm_num [ctor]) (by norm_num [ctor])
      (by norm_num [ctor])⟩

end StaggeredGrid

section Int32Conversion

end Int32Conversion

namespace StaggeredGrid

end StaggeredGrid

section Int32Bounds

end Int32Bounds

namespace StaggeredGrid

end StaggeredGrid

namespace StaggeredGrid

end StaggeredGrid

namespace StaggeredGrid

/-- The cell id computed with the 32-bit conversion is a valid id for every
point, whatever the conversion delivers. -/
theorem cell_id_int32_range (g : StaggeredGrid) (hx : 1 ≤ g.nx) (hy : 1 ≤ g.ny)
    (hn : g.ncells = g.nx * g.ny) (p : Point) :
    0 ≤ g.cell_id_int32 p ∧ g.cell_id_int32 p < g.ncells :=
  keep_in_domain_range g hx hy hn _ _

end StaggeredGrid
